import Mathlib

/-!
Verification development for `hoi4_icon_search_gen.py` (HoI4-GFX-Search).

The script is shallowly embedded: paths are strings, the file system is a
finite association list from paths to file contents, and the script's global
mutable state (`BAD_FILES`, `DUPLICATES`, console output, files written) is
threaded explicitly as a `GState` value.  Python exceptions are modelled with
`Except`; `sys.exit` is modelled by an exit-code result.  Recursive text
scanners carry an explicit fuel argument (always called with enough fuel, as
established by the accompanying lemmas) so that every definition computes by
kernel reduction.
-/

namespace HoI4

/-- Python `\s` whitespace test (ASCII range, as produced by the script's gfx inputs). -/
def isPyWs (c : Char) : Bool :=
  (c == ' ') || (c == '\t') || (c == '\n') || (c == '\r') || (c == '\x0b') || (c == '\x0c')

/-- Code-point lexicographic comparison on character lists; this is exactly how
Python compares `str` values for sorting. -/
def lexLe : List Char → List Char → Bool
  | [], _ => true
  | _ :: _, [] => false
  | a :: as, b :: bs =>
    if a.toNat < b.toNat then true
    else if a.toNat = b.toNat then lexLe as bs
    else false

/-- Python string `<=` on `String`. -/
def pyStrLe (a b : String) : Bool := lexLe a.toList b.toList

/-- Python `s.startswith(t)` (list-level, so that it computes by kernel reduction). -/
def strStarts (s t : String) : Bool := t.toList.isPrefixOf s.toList

/-- Python `s.endswith(t)` (list-level, so that it computes by kernel reduction). -/
def strEnds (s t : String) : Bool := t.toList.isSuffixOf s.toList

/-- Fuel-driven core of Python's `str.replace`: replaces every leftmost,
non-overlapping occurrence of `old` by `new`.  Fuel `s.length` suffices. -/
def pyReplaceF (old new : List Char) : Nat → List Char → List Char
  | 0, s => s
  | _ + 1, [] => []
  | fuel + 1, c :: cs =>
    if old.isPrefixOf (c :: cs) then new ++ pyReplaceF old new fuel ((c :: cs).drop old.length)
    else c :: pyReplaceF old new fuel cs

/-- Python `s.replace(old, new)` (for the nonempty `old` patterns the script uses). -/
def pyReplace (s old new : String) : String :=
  (pyReplaceF old.toList new.toList s.toList.length s.toList).asString

/-- Python `str.lower` on the ASCII characters the script manipulates. -/
def pyLower (s : String) : String := (s.toList.map Char.toLower).asString

/-- Case-insensitive match of a (lowercase) literal `pre` against the start of `s`;
returns the remainder on success.  Used to model `re.IGNORECASE` literals. -/
def stripCI : List Char → List Char → Option (List Char)
  | [], s => some s
  | _ :: _, [] => none
  | p :: ps, c :: cs => if c.toLower = p then stripCI ps cs else none

/-- Contents of a glob character class, scanned up to the closing `]`. -/
def splitCls : List Char → Option (List Char × List Char)
  | [] => none
  | c :: r =>
    if c = ']' then some ([], r)
    else (splitCls r).map (fun p => (c :: p.1, p.2))

/-- Fuel-driven glob matcher, modelled from Python `fnmatch`/`pathlib.glob`
semantics restricted to the constructs reachable here: `*`, `?`, simple
character classes without ranges or negation, and literal characters (an
unmatched `[` is literal, as in `fnmatch`).  Fuel `p.length + s.length`
suffices. -/
def globMatchF : Nat → List Char → List Char → Bool
  | 0, _, _ => false
  | _ + 1, [], s => s.isEmpty
  | fuel + 1, c :: ps, s =>
    if c = '*' then
      globMatchF fuel ps s ||
        (match s with
         | [] => false
         | _ :: ss => globMatchF fuel (c :: ps) ss)
    else if c = '?' then
      match s with
      | [] => false
      | _ :: ss => globMatchF fuel ps ss
    else if c = '[' then
      match splitCls ps with
      | some (cls, rem) =>
        match s with
        | [] => false
        | d :: ds => cls.contains d && globMatchF fuel rem ds
      | none =>
        match s with
        | [] => false
        | d :: ds => (d = c : Bool) && globMatchF fuel ps ds
    else
      match s with
      | [] => false
      | d :: ds => (d = c : Bool) && globMatchF fuel ps ds

/-- Glob match entry point. -/
def globMatch (p s : String) : Bool :=
  globMatchF (p.toList.length + s.toList.length + 1) p.toList s.toList

/-- Represents a DLC with a name, associated gfx folder, and interface folders
(class `DLC`, lines 111-127). -/
structure DLC where
  name : String
  gfx_folder : String
  interface_folders : List String
deriving DecidableEq

/-- Represents a sprite type defined in a gfx file (class `SpriteType`, lines 130-147). -/
structure SpriteType where
  name : String
  texturefile : String
  frames : Nat
  dlc : Option DLC
deriving DecidableEq

/-- Instrumentation events: which I/O-performing operation of the script ran, in order. -/
inductive Event where
  | readGfx (path : String)
  | convertImage (path : String)
  | writeHtml (path : String)
deriving DecidableEq

/-- The script's global mutable state: `BAD_FILES`, `DUPLICATES`, console
output (`print` calls that report errors), files written, and the event trace. -/
structure GState where
  bad_files : List (String × String)
  duplicates : List (String × (String × String × Option DLC))
  log : List String
  written : List (String × String)
  events : List Event
deriving DecidableEq

/-- State at interpreter start: both global accumulators empty. -/
def initState : GState := ⟨[], [], [], [], []⟩

/-- File system model: the files that exist, with their contents. -/
abbrev FS := List (String × String)

/-- Python `Path.exists()`. -/
def fsExists (fs : FS) (p : String) : Bool := fs.any (fun e => e.1 == p)

/-- Python `Path.open().read()`: contents on success, `FileNotFoundError` otherwise. -/
def fsRead (fs : FS) (p : String) : Except String String :=
  match fs.find? (fun e => e.1 == p) with
  | some e => .ok e.2
  | none => .error ("FileNotFoundError: " ++ p)

/-- Python `Path.is_dir()`: some existing file lives strictly below `p`. -/
def fsIsDir (fs : FS) (p : String) : Bool := fs.any (fun e => strStarts e.1 (p ++ "/"))

/-- Splits off everything after the last `/`: `some (dir, base)` when a slash occurs. -/
def splitLastSlash : List Char → Option (List Char × List Char)
  | [] => none
  | c :: cs =>
    match splitLastSlash cs with
    | some (d, b) => some (c :: d, b)
    | none => if c = '/' then some ([], cs) else none

/-- Splits off everything after the last `.`. -/
def splitLastDot : List Char → Option (List Char × List Char)
  | [] => none
  | c :: cs =>
    match splitLastDot cs with
    | some (d, b) => some (c :: d, b)
    | none => if c = '.' then some ([], cs) else none

/-- Python `str(Path(p).parent)`. -/
def parentDir (p : String) : String :=
  match splitLastSlash p.toList with
  | some (d, _) => if d = [] then "/" else d.asString
  | none => "."

/-- Python `Path(p).name`. -/
def baseName (p : String) : String :=
  match splitLastSlash p.toList with
  | some (_, b) => b.asString
  | none => p

/-- Python `Path(p).stem`: the base name with its (possibly empty) suffix removed. -/
def fileStem (p : String) : String :=
  let b := baseName p
  match splitLastDot b.toList with
  | some (d, _) => if d = [] then b else d.asString
  | none => b

/-- Python `Path(a) / b` on the string representation. -/
def pathJoin (a b : String) : String :=
  if strStarts b "/" then b
  else if a = "." then b
  else if a = "" then b
  else if strEnds a "/" then a ++ b
  else a ++ "/" ++ b

/-- Python `Path(s)` string normalization as used here (`Path("")` prints as `.`;
deeper normalization is not exercised by the script's inputs). -/
def mkPath (s : String) : String := if s = "" then "." else s

/-- Python `Path.is_relative_to(folder)`. -/
def isRelativeTo (p folder : String) : Bool :=
  p == folder || strStarts p (folder ++ "/")

/-- Per-character translation used by `get_case_insensitive_glob` (line 155). -/
def ciGlobPiece (c : Char) : List Char :=
  if c.isAlpha then ['[', c.toLower, c.toUpper, ']'] else [c]

/-- Returns a case-insensitive glob pattern for the given path
(`get_case_insensitive_glob`, lines 150-156). -/
def get_case_insensitive_glob (pattern : String) : String :=
  ((pattern.toList.map ciGlobPiece).flatten).asString

/-- Converts an image file to PNG format (`convert_image`, lines 45-75).

The source computes `fname = image_path.stem` and then hits a bare `return`
statement (line 52) before the `try` block, so for an existing path the whole
conversion body (lines 53-70) is unreachable: nothing is written and `None` is
returned.  For a missing path the error is recorded in `BAD_FILES`. -/
def convert_image (fs : FS) (st : GState) (image_path : String) (frames : Nat) :
    Option String × GState :=
  let _ := frames
  let st := { st with events := st.events ++ [Event.convertImage image_path] }
  if fsExists fs image_path then
    (none, st)
  else
    let msg := image_path ++ " does not exist!"
    (none, { st with bad_files := st.bad_files ++ [(image_path, msg)], log := st.log ++ [msg] })

/-- Modelled from the spec: what `convert_image`'s own docstring and the spec
say it does for an existing file — convert the image to PNG (cropping when
`frames > 1`), save it next to the source file, and return the new path.  The
pixel data is outside the embedding; the path contract and the write event are
modelled. -/
def convert_image_documented (fs : FS) (st : GState) (image_path : String) (frames : Nat) :
    Option String × GState :=
  let st := { st with events := st.events ++ [Event.convertImage image_path] }
  if fsExists fs image_path then
    let new_fname := pathJoin (parentDir image_path) (fileStem image_path ++ ".png")
    let payload := if frames > 1 then "png-cropped" else "png"
    (some new_fname, { st with written := st.written ++ [(new_fname, payload)] })
  else
    let msg := image_path ++ " does not exist!"
    (none, { st with bad_files := st.bad_files ++ [(image_path, msg)], log := st.log ++ [msg] })

/-- Python truthiness of the optional `updated_images` set (an empty set is falsy). -/
def optTruthy (u : Option (List String)) : Bool :=
  match u with
  | none => false
  | some l => !l.isEmpty

/-- The submission loop of `convert_images` (lines 89-99): one `(file_path, frames)`
task per sprite, skipping sprites filtered out by `updated_images`. -/
def submitTasks (path_dicts : List (List (String × List SpriteType)))
    (updated_images : Option (List String)) : List (String × Nat) :=
  ((path_dicts.map (fun d =>
    (d.map (fun e =>
      e.2.filterMap (fun sprite =>
        if optTruthy updated_images && !((updated_images.getD []).contains (mkPath e.1)) then none
        else some (mkPath e.1, sprite.frames)))).flatten)).flatten)

/-- The value left in the loop variable `file_path` after the submission loop:
the last path iterated over, whether or not its sprites were skipped. -/
def lastPathBound (path_dicts : List (List (String × List SpriteType))) : Option String :=
  ((path_dicts.map (fun d => d.map (fun e => mkPath e.1))).flatten).getLast?

/-- Runs the submitted tasks (the thread pool executes each `convert_image`
call; `future.result()` returns the task's value, or would re-raise its
exception — `convert_image` catches everything, so results are always `ok`). -/
def runTasks (fs : FS) (st : GState) : List (String × Nat) → List (Except String (Option String)) × GState
  | [] => ([], st)
  | t :: ts =>
    let (r, st1) := convert_image fs st t.1 t.2
    let (rs, st2) := runTasks fs st1 ts
    (Except.ok r :: rs, st2)

/-- The final join of `convert_images` (lines 100-108): every `future.result()`
is inspected; an exception is caught and recorded against the last-bound
`file_path`, and the loop continues with the remaining futures. -/
def collectResults (last_file_path : String) (st : GState) :
    List (Except String (Option String)) → GState
  | [] => st
  | r :: rs =>
    match r with
    | .ok _ => collectResults last_file_path st rs
    | .error e =>
      let msg := "EXCEPTION occurred during image conversion."
      collectResults last_file_path
        { st with bad_files := st.bad_files ++ [(last_file_path, e)],
                  log := st.log ++ [msg, e] } rs

/-- Converts images for all sprite types provided (`convert_images`, lines 78-108). -/
def convert_images (fs : FS) (st : GState)
    (path_dicts : List (List (String × List SpriteType)))
    (updated_images : Option (List String)) : GState :=
  let tasks := submitTasks path_dicts updated_images
  let (results, st1) := runTasks fs st tasks
  match lastPathBound path_dicts with
  | none => st1
  | some lp => collectResults lp st1 results

/-- Python `Path(".").glob(pattern)`'s first result: raises on a non-relative
pattern (as `pathlib` does), otherwise the first existing file matching the
pattern. -/
def globFirst (fs : FS) (pattern : String) : Except String (Option String) :=
  if strStarts pattern "/" then
    .error "NotImplementedError: Non-relative patterns are unsupported"
  else
    .ok ((fs.map (fun e => e.1)).find? (fun p => globMatch pattern p))

/-- Tries to find a file matching `texturefile` case-insensitively
(`try_case_insensitive_file`, lines 159-171). -/
def try_case_insensitive_file (fs : FS) (st : GState) (texturefile : String) :
    Except String String × GState :=
  match globFirst fs (get_case_insensitive_glob texturefile) with
  | .error e => (.error e, st)
  | .ok (some found) =>
    let msg := "WRONG CASE: " ++ texturefile ++ " doesn\x27t exist, but " ++ found ++ " does!"
    (.ok found,
     { st with bad_files := st.bad_files ++ [(texturefile, msg)], log := st.log ++ [msg] })
  | .ok none => (.ok texturefile, st)

/-- Lines 204-214: the first DLC one of whose interface folders contains `path`. -/
def find_dlc (dlcs : List DLC) (path : String) : Option DLC :=
  dlcs.find? (fun dlc => dlc.interface_folders.any (fun folder => isRelativeTo path folder))

/-- Position just after the first newline, if any. -/
def dropToNewline : List Char → Option (List Char)
  | [] => none
  | c :: cs => if c = '\n' then some cs else dropToNewline cs

/-- Models `re.sub(r"#.*\n", " ", contents)` (line 218): each comment from `#`
through the next newline collapses to a single space; a trailing `#...` without
a newline does not match.  Fuel `s.length` suffices. -/
def stripCommentsF : Nat → List Char → List Char
  | 0, s => s
  | _ + 1, [] => []
  | fuel + 1, c :: cs =>
    if c = '#' then
      match dropToNewline cs with
      | some rest => ' ' :: stripCommentsF fuel rest
      | none => c :: cs
    else c :: stripCommentsF fuel cs

/-- Comment removal entry point. -/
def stripComments (s : List Char) : List Char := stripCommentsF s.length s

/-- Line 219: `file_contents.replace("\n", " ")`. -/
def replaceNewlines (s : List Char) : List Char :=
  s.map (fun c => if c = '\n' then ' ' else c)

/-- Attempts to match `spriteType\s*=\s*\{[^\{\}]*?\}` (case-insensitive,
line 222) at the head of `s`; on success returns the matched text and the
remainder after it. -/
def matchBlockAt (s : List Char) : Option (List Char × List Char) :=
  match stripCI "spritetype".toList s with
  | none => none
  | some s1 =>
    match s1.dropWhile isPyWs with
    | '=' :: s3 =>
      match s3.dropWhile isPyWs with
      | '{' :: s5 =>
        match s5.dropWhile (fun c => !(c = '{' || c = '}')) with
        | '}' :: s6 => some (s.take (s.length - s6.length), s6)
        | _ => none
      | _ => none
    | _ => none

/-- Scanner for all (non-overlapping, leftmost) sprite blocks, as
`re.findall` produces them.  Fuel `s.length` suffices. -/
def findSpriteBlocksF : Nat → List Char → List (List Char)
  | 0, _ => []
  | _ + 1, [] => []
  | fuel + 1, c :: cs =>
    match matchBlockAt (c :: cs) with
    | some (blk, rem) => blk :: findSpriteBlocksF fuel rem
    | none => findSpriteBlocksF fuel cs

/-- Sprite-block extraction entry point. -/
def findSpriteBlocks (s : List Char) : List (List Char) := findSpriteBlocksF s.length s

/-- After `\s*`, expects `=\s*"(.*?)"` and returns the lazily captured group. -/
def tryQuotedVal (s : List Char) : Option (List Char) :=
  match s.dropWhile isPyWs with
  | '=' :: s2 =>
    match s2.dropWhile isPyWs with
    | '"' :: s4 =>
      match s4.dropWhile (fun c => c ≠ '"') with
      | '"' :: _ => some (s4.takeWhile (fun c => c ≠ '"'))
      | _ => none
    | _ => none
  | _ => none

/-- After `\s*`, expects `=\s*([^\s]+)` and returns the captured group. -/
def tryBareVal (s : List Char) : Option (List Char) :=
  match s.dropWhile isPyWs with
  | '=' :: s2 =>
    let v := (s2.dropWhile isPyWs).takeWhile (fun c => !isPyWs c)
    if v.isEmpty then none else some v
  | _ => none

/-- Models `re.search(r'\s+KEY\s*=\s*"(.*?)"', block, re.IGNORECASE)`:
the leftmost occurrence of whitespace, the (lowercased) key, `=`, and a
quoted value. -/
def searchKeyQuoted (key : List Char) : List Char → Option (List Char)
  | [] => none
  | c :: cs =>
    match (if isPyWs c then (stripCI key (cs.dropWhile isPyWs)).bind tryQuotedVal else none) with
    | some v => some v
    | none => searchKeyQuoted key cs

/-- Models `re.search(r"\s+KEY\s*=\s*([^\s]+)", block, re.IGNORECASE)`. -/
def searchKeyBare (key : List Char) : List Char → Option (List Char)
  | [] => none
  | c :: cs =>
    match (if isPyWs c then (stripCI key (cs.dropWhile isPyWs)).bind tryBareVal else none) with
    | some v => some v
    | none => searchKeyBare key cs

/-- Python `int` on a non-empty digit string. -/
def digitsToNat (d : List Char) : Nat :=
  d.foldl (fun acc c => 10 * acc + (c.toNat - 48)) 0

/-- After `\s*`, expects `=\s*([0-9]+)`. -/
def tryDigitsVal (s : List Char) : Option Nat :=
  match s.dropWhile isPyWs with
  | '=' :: s2 =>
    let d := (s2.dropWhile isPyWs).takeWhile Char.isDigit
    if d.isEmpty then none else some (digitsToNat d)
  | _ => none

/-- Models `re.search(r"\s+noOfFrames\s*=\s*([0-9]+)", block, re.IGNORECASE)`
(lines 269-273). -/
def searchFrames : List Char → Option Nat
  | [] => none
  | c :: cs =>
    match (if isPyWs c then (stripCI "noofframes".toList (cs.dropWhile isPyWs)).bind tryDigitsVal else none) with
    | some n => some n
    | none => searchFrames cs

/-- Association-list model of the script's (insertion-ordered) dictionaries of
sprite lists. -/
abbrev Gfx := List (String × List SpriteType)

/-- Dictionary read with `defaultdict(list)` default. -/
def gfxGet (g : Gfx) (k : String) : List SpriteType :=
  (((g.find? (fun e => e.1 == k)).map (fun e => e.2))).getD []

/-- Dictionary write: updates the existing entry in place, else appends a new
entry (Python dicts preserve insertion order). -/
def gfxSet (g : Gfx) (k : String) (v : List SpriteType) : Gfx :=
  if g.any (fun e => e.1 == k) then g.map (fun e => if e.1 == k then (k, v) else e)
  else g ++ [(k, v)]

/-- The replace-or-append step of `read_gfx_file` (lines 284-290): every
existing record with the same DLC is overwritten by the new sprite; if none
matched, the sprite is appended. -/
def replace_or_append (cur : List SpriteType) (s : SpriteType) : List SpriteType :=
  if cur.any (fun e => decide (e.dlc = s.dlc)) then
    cur.map (fun e => if e.dlc = s.dlc then s else e)
  else cur ++ [s]

/-- The texturefile resolution of lines 257-266: try the DLC-prefixed path
(with a case-insensitive fallback), use it if it exists, then fall back to a
case-insensitive search for the bare path when that still does not exist.
`try_case_insensitive_file` can raise (its glob rejects non-relative
patterns), which this propagates together with the state reached so far. -/
def resolve_texturefile (fs : FS) (maybe_dlc : Option DLC) (st : GState) (texturefile : String) :
    Except String String × GState :=
  match maybe_dlc with
  | none =>
    if fsExists fs texturefile then (.ok texturefile, st)
    else try_case_insensitive_file fs st texturefile
  | some dlc =>
    let dtf := pathJoin dlc.gfx_folder texturefile
    let resolved : Except String String × GState :=
      if fsExists fs dtf then (.ok dtf, st)
      else try_case_insensitive_file fs st dtf
    match resolved with
    | (.error e, st1) => (.error e, st1)
    | (.ok dtf2, st1) =>
      let texturefile2 := if fsExists fs dtf2 then dtf2 else texturefile
      if fsExists fs texturefile2 then (.ok texturefile2, st1)
      else try_case_insensitive_file fs st1 texturefile2

/-- The name regexes of lines 229-238: quoted first, bare fallback, `""` when
neither matches. -/
def blockName (block : List Char) : String :=
  ((searchKeyQuoted "name".toList block <|> searchKeyBare "name".toList block).map
    List.asString).getD ""

/-- The texturefile regexes of lines 241-251: quoted first, bare fallback. -/
def blockTex (block : List Char) : Option (List Char) :=
  searchKeyQuoted "texturefile".toList block <|> searchKeyBare "texturefile".toList block

/-- Lines 254-255: one leading `\` or `/` is stripped from the texturefile. -/
def stripLeadSlash (texRaw : List Char) : List Char :=
  match texRaw with
  | '\\' :: r => r
  | '/' :: r => r
  | r => r

/-- Processing of a single sprite block (lines 224-297).  A failure inside the
per-block `try` is printed — including the `EXCEPTION with sprite ...` message
— but, unlike the per-file handler, records nothing in `BAD_FILES`. -/
def process_block (fs : FS) (maybe_dlc : Option DLC) (path : String)
    (acc : Gfx × Gfx × GState) (block : List Char) : Gfx × Gfx × GState :=
  let (gfx, gfx_files, st) := acc
  let name := blockName block
  match blockTex block with
  | none =>
    (gfx, gfx_files, st)
  | some texRaw =>
    let texturefile := mkPath (stripLeadSlash texRaw).asString
    match resolve_texturefile fs maybe_dlc st texturefile with
    | (.error e, st1) =>
      let msg := "EXCEPTION with sprite \x27" ++ name ++ "\x27 and texturefile \x27" ++
        texturefile ++ "\x27 in " ++ path
      (gfx, gfx_files, { st1 with log := st1.log ++ [msg, e] })
    | (.ok tex, st1) =>
      let no_of_frames := (searchFrames block).getD 1
      if name ≠ "" then
        let sprite : SpriteType := ⟨name, tex, no_of_frames, maybe_dlc⟩
        let cur := gfxGet gfx name
        if cur.any (fun e => e.texturefile == sprite.texturefile) then
          (gfx, gfx_files, st1)
        else
          ((gfxSet gfx name (replace_or_append cur sprite)),
           (gfxSet gfx_files tex (gfxGet gfx_files tex ++ [sprite])),
           st1)
      else (gfx, gfx_files, st1)

/-- Processing of one gfx file path (lines 201-302).  A failure of the
per-file `try` — here, the file being unreadable — is printed and recorded in
`BAD_FILES`, and the loop continues with the next path. -/
def process_path (fs : FS) (dlcs : List DLC) (acc : Gfx × Gfx × GState) (path0 : String) :
    Gfx × Gfx × GState :=
  let (gfx, gfx_files, st) := acc
  let path := mkPath path0
  let st := { st with events := st.events ++ [Event.readGfx path] }
  let maybe_dlc := find_dlc dlcs path
  match fsRead fs path with
  | .error e =>
    let msg := "EXCEPTION with " ++ path
    (gfx, gfx_files,
     { st with bad_files := st.bad_files ++ [(path, e)], log := st.log ++ [msg, e] })
  | .ok raw =>
    let contents := replaceNewlines (stripComments raw.toList)
    let blocks := findSpriteBlocks contents
    blocks.foldl (process_block fs maybe_dlc path) (gfx, gfx_files, st)

/-- Reads the contents of gfx files and extracts sprite definitions
(`read_gfx_file`, lines 192-304). -/
def read_gfx_file (fs : FS) (gfx_paths : List String) (dlcs : List DLC) (st : GState) :
    (Gfx × Gfx) × GState :=
  let r := gfx_paths.foldl (process_path fs dlcs) ([], [], st)
  ((r.1, r.2.1), r.2.2)

/-- Expands directories into `.gfx` files below them (`Path.rglob("*.gfx")`)
and reads them (`read_gfx`, lines 174-189). -/
def read_gfx (fs : FS) (gfx_paths : List String) (dlcs : List DLC) (st : GState) :
    (Gfx × Gfx) × GState :=
  let expanded := gfx_paths.foldl (fun acc path =>
    if fsIsDir fs path then
      acc ++ (fs.map (fun e => e.1)).filter
        (fun f => strStarts f (path ++ "/") && strEnds f ".gfx")
    else acc ++ [path]) []
  read_gfx_file fs expanded dlcs st

/-- Truthiness of an optional DLC (`DLC.__bool__` is `bool(self.name)`, line 127). -/
def dlcTruthy (o : Option DLC) : Bool :=
  match o with
  | some d => decide (d.name ≠ "")
  | none => false

/-- Normalizes a DLC name for CSS classes (`normalize_dlc_name`, lines 307-311).
The script also applies it to `None` (line 338), where Python's `str(None)`
yields `"None"`. -/
def normalize_dlc_name (dlc : Option DLC) : String :=
  pyReplace (pyLower (match dlc with | some d => d.name | none => "None")) " " "-"

/-- Insertion into a sorted list, keeping equal keys adjacent in encounter order. -/
def sortInsert (x : String) : List String → List String
  | [] => [x]
  | y :: ys => if pyStrLe x y then x :: y :: ys else y :: sortInsert x ys

/-- Python `list.sort()` on strings: ascending code-point lexicographic order.
Any correct sort of a list of strings returns the same list, because equal
keys are identical strings, so insertion sort models `list.sort` exactly. -/
def pySort : List String → List String
  | [] => []
  | x :: xs => sortInsert x (pySort xs)

/-- The per-icon body of `generate_icons_section`'s inner loop (lines 328-362).
Accumulator: collected entries, `icons_num`, `added_num`, and the state. -/
def icon_step (fs : FS) (key : String) (icons_len : Nat) (maybe_dlc : Option DLC)
    (remove_str : Option String)
    (acc : List String × Nat × Bool × GState) (icon : SpriteType) :
    List String × Nat × Bool × GState :=
  let (entries, icons_num, added_num, st) := acc
  let name := icon.name
  let texturefile := icon.texturefile
  let st := { st with duplicates := st.duplicates ++ [(name, (texturefile, key, icon.dlc))] }
  let maybe_dlc_str :=
    if dlcTruthy icon.dlc then " dlc-" ++ normalize_dlc_name icon.dlc
    else if icons_len = 1 then ""
    else " hidedlc-" ++ normalize_dlc_name maybe_dlc
  let img_src := pathJoin (parentDir texturefile) (fileStem texturefile ++ ".png")
  let st :=
    if !(fsExists fs img_src) then
      -- the `try` around this call (lines 344-350) cannot fire:
      -- `convert_image` catches every exception internally
      (convert_image fs st texturefile icon.frames).2
    else st
  if fsExists fs img_src then
    let name2 :=
      match remove_str with
      | some r => if r ≠ "" then pyReplace name r "" else name
      | none => name
    let icons_num2 := if !added_num then icons_num + 1 else icons_num
    let entry :=
      "\n          <div data-clipboard-text=\"" ++ name2 ++ "\" data-search-text=\"" ++ name2 ++
      "\" title=\"" ++ name2 ++ "\" class=\"icon" ++ maybe_dlc_str ++ "\">\n" ++
      "            <img src=\"" ++ img_src ++ "\" alt=\"" ++ name2 ++ "\">\n" ++
      "          </div>\n        "
    (entries ++ [entry], icons_num2, true, st)
  else (entries, icons_num, added_num, st)

/-- The per-key body of `generate_icons_section`'s outer loop (lines 324-362). -/
def key_step (fs : FS) (remove_str : Option String)
    (acc : List String × Nat × GState) (e : String × List SpriteType) :
    List String × Nat × GState :=
  let (entries, icons_num, st) := acc
  let maybe_dlc :=
    (((e.2.find? (fun i => dlcTruthy i.dlc)).map (fun i => i.dlc))).getD none
  let r := e.2.foldl (icon_step fs e.1 e.2.length maybe_dlc remove_str)
    (entries, icons_num, false, st)
  (r.1, r.2.1, r.2.2.2)

/-- Generates HTML snippets for a group of icons; returns the sorted entries
and the number of keys that contributed at least one entry
(`generate_icons_section`, lines 314-364). -/
def generate_icons_section (fs : FS) (st : GState) (icons_dict : Gfx)
    (remove_str : Option String) : (List String × Nat) × GState :=
  let r := icons_dict.foldl (key_step fs remove_str) ([], 0, st)
  ((pySort r.1, r.2.1), r.2.2)

/-- Python `"\n".join`. -/
def joinNL (l : List String) : String := String.intercalate "\n" l

/-- Generates HTML checkbox entries for each DLC (`generate_dlc_checkboxes`,
lines 367-379). -/
def generate_dlc_checkboxes (dlcs : List DLC) : List String :=
  dlcs.map (fun dlc =>
    let normalized := normalize_dlc_name (some dlc)
    "<label><input type=\"checkbox\" class=\"dlc-checkbox\" value=\"" ++ normalized ++
    "\" checked onchange=\"toggleDLC(\x27" ++ normalized ++ "\x27)\"> " ++ dlc.name ++ "</label>")

/-- One icon section of the template: icons token, count token, dictionary,
optional removal string (the `sections` list of lines 411-427). -/
abbrev TemplateSection := String × String × Gfx × Option String

/-- The `for icons_token, count_token, icons_dict, remove_str in sections`
loop of `generate_html` (lines 429-432). -/
def sectionsFold (fs : FS) : List TemplateSection → String × GState → String × GState
  | [], hs => hs
  | sec :: rest, (html, st) =>
    let r := generate_icons_section fs st sec.2.2.1 sec.2.2.2
    let html1 := pyReplace html sec.1 (String.join r.1.1)
    let html2 := pyReplace html1 sec.2.1 (toString r.1.2)
    sectionsFold fs rest (html2, r.2)

/-- The fixed list of icon sections of `generate_html` (lines 411-427). -/
def theSections (goals ideas character_ideas texticons events news_events agencies
    decisions decisions_cat decisions_pics : Gfx) : List TemplateSection :=
  [("@GOALS_ICONS", "@GOALS_NUM", goals, none),
   ("@IDEAS_ICONS", "@IDEAS_NUM", ideas, some "GFX_idea_"),
   ("@CHARACTER_IDEAS_ICONS", "@CHARACTER_IDEAS_NUM", character_ideas, some "GFX_idea_"),
   ("@TEXTICONS_ICONS", "@TEXTICONS_NUM", texticons, none),
   ("@EVENTS_ICONS", "@EVENTS_NUM", events, none),
   ("@NEWSEVENTS_ICONS", "@NEWSEVENTS_NUM", news_events, none),
   ("@AGENCIES_ICONS", "@AGENCIES_NUM", agencies, none),
   ("@DECISIONS_ICONS", "@DECISIONS_NUM", decisions, none),
   ("@DECISIONSCAT_ICONS", "@DECISIONSCAT_NUM", decisions_cat, none),
   ("@DECISIONSPICS_ICONS", "@DECISIONSPICS_NUM", decisions_pics, none)]

/-- Reads the HTML template, replaces tokens with generated content, and
writes the result to `index.html` (`generate_html`, lines 382-455).  Returns
the final state together with `some code` when the script exits
(`sys.exit(1)` on a missing template, before anything is written).  `now`
stands for `str(datetime.datetime.utcnow())` (line 437).  The trailing
duplicate-icon report (lines 446-455) only prints and is not modelled
further. -/
def generate_html (fs : FS) (st : GState) (goals ideas character_ideas texticons events
    news_events agencies decisions decisions_cat decisions_pics : Gfx)
    (title : String) (favicon : Option String) (replace_date : Bool)
    (template_path : String) (dlcs : List DLC) (now : String) : GState × Option Nat :=
  if !(fsExists fs template_path) then
    ({ st with log := st.log ++ [template_path ++ " doesn\x27t exist!"] }, some 1)
  else
    let html0 := match fsRead fs template_path with | .ok c => c | .error _ => ""
    let sections := theSections goals ideas character_ideas texticons events news_events
      agencies decisions decisions_cat decisions_pics
    let hs := sectionsFold fs sections (html0, st)
    let html1 := pyReplace hs.1 "@TITLE" title
    let html2 := pyReplace html1 "@FAVICON" (match favicon with | some f => f | none => "")
    let html3 := if replace_date then pyReplace html2 "@UPDATE_DATE" now else html2
    let html4 := pyReplace html3 "@DLC_CHECKBOXES" (joinNL (generate_dlc_checkboxes dlcs))
    ({ hs.2 with written := hs.2.written ++ [("index.html", html4)],
                 events := hs.2.events ++ [Event.writeHtml "index.html"],
                 log := hs.2.log ++ ["Writing index.html..."] }, none)

/-- The script's CLI arguments after `setup_cli_arguments` has parsed and
path-expanded them (lines 458-628). -/
structure Args where
  title : String
  template_path : String
  favicon : Option String
  goals : List String
  ideas : List String
  character_ideas : List String
  texticons : List String
  events : List String
  news_events : List String
  agencies : List String
  decisions : List String
  decisions_cat : List String
  decisions_pics : List String
  modified_images : Option (List String)
  replace_date : Bool
  dlc : List DLC
deriving DecidableEq

/-- The pipeline of `main` (lines 631-689) after CLI parsing: ten `read_gfx`
calls, one `convert_images` call over the collected file dictionaries, then
`generate_html`; the closing loop printing `BAD_FILES` only prints. -/
def mainRun (fs : FS) (args : Args) (now : String) (st : GState) : GState × Option Nat :=
  let modified_images_set :=
    match args.modified_images with
    | some (x :: xs) => some (x :: xs)
    | _ => none
  let goalsR := read_gfx fs args.goals args.dlc st
  let ideasR := read_gfx fs args.ideas args.dlc goalsR.2
  let character_ideasR := read_gfx fs args.character_ideas args.dlc ideasR.2
  let texticonsR := read_gfx fs args.texticons args.dlc character_ideasR.2
  let eventsR := read_gfx fs args.events args.dlc texticonsR.2
  let news_eventsR := read_gfx fs args.news_events args.dlc eventsR.2
  let agenciesR := read_gfx fs args.agencies args.dlc news_eventsR.2
  let decisionsR := read_gfx fs args.decisions args.dlc agenciesR.2
  let decisions_catR := read_gfx fs args.decisions_cat args.dlc decisionsR.2
  let decisions_picsR := read_gfx fs args.decisions_pics args.dlc decisions_catR.2
  let path_dicts := [goalsR.1.2, ideasR.1.2, character_ideasR.1.2, texticonsR.1.2,
    eventsR.1.2, news_eventsR.1.2, agenciesR.1.2, decisionsR.1.2, decisions_catR.1.2,
    decisions_picsR.1.2]
  let stC := convert_images fs decisions_picsR.2 path_dicts modified_images_set
  generate_html fs stC goalsR.1.1 ideasR.1.1 character_ideasR.1.1 texticonsR.1.1
    eventsR.1.1 news_eventsR.1.1 agenciesR.1.1 decisionsR.1.1 decisions_catR.1.1
    decisions_picsR.1.1 args.title args.favicon args.replace_date args.template_path
    args.dlc now

/-- Modelled from the claim's notion of "equal up to the case of alphabetic
characters": positionwise, an alphabetic input character matches exactly its
lower- and upper-case forms, any other character matches only itself. -/
def eqUpToCase : List Char → List Char → Bool
  | [], [] => true
  | c :: cs, d :: ds =>
    (if c.isAlpha then d == c.toLower || d == c.toUpper else d == c) && eqUpToCase cs ds
  | _, _ => false

/-- Concrete file system for the C1 evaluation: one existing image. -/
def fsC1 : FS := [("gfx/a.dds", "dds")]

/-- Concrete file system for the C2 counterexample: a gfx file whose sprite
block names a texturefile starting with `//`.  Stripping one slash leaves an
absolute path, whose nonexistence sends `try_case_insensitive_file` into
`Path(".").glob` with a non-relative pattern — which raises, exercising the
per-sprite-block `except` handler. -/
def fsC2 : FS := [("g.gfx", "spriteType = \x7b name = \"n\" texturefile = \"//Gfx/a.dds\" \x7d")]

/-- Concrete file system for the C4 counterexample: one gfx file with two
sprite blocks sharing name, texturefile and DLC (`None`) but differing in
`noOfFrames`. -/
def fsC4 : FS :=
  [("t.dds", "dds"),
   ("g.gfx", "spriteType = \x7b name = \"n\" texturefile = \"t.dds\" \x7d spriteType = \x7b name = \"n\" texturefile = \"t.dds\" noOfFrames = 2 \x7d")]

/-- Concrete file system for the C8 counterexample: template and gfx file
present, the referenced texture exists but its `.png` does not. -/
def fsC8 : FS :=
  [("tpl", "X"),
   ("g.gfx", "spriteType = \x7b name = \"n\" texturefile = \"gfx/a.dds\" \x7d"),
   ("gfx/a.dds", "dds")]

/-- Arguments for the C8 counterexample run: only the goals section is fed. -/
def argsC8 : Args :=
  ⟨"T", "tpl", none, ["g.gfx"], [], [], [], [], [], [], [], [], [], none, false, []⟩

/-- The goals dictionary that the C8 run extracts. -/
def goalsC8 : Gfx := [("n", [⟨"n", "gfx/a.dds", 1, none⟩])]

/-- Claim C1: for every image path that exists on disk, `convert_image`
converts the image to PNG, writes the result next to the source file, and
returns the new path.  The code contradicts its own docstring: line 52 is a
bare `return` placed before the `try` block, so for an existing path the
function returns `None`, writes nothing, and records nothing; the documented
behaviour (`convert_image_documented`) would return `gfx/a.png`.  This theorem
evaluates both at the failing input `gfx/a.dds` with `frames = 1`. -/
theorem claim_C1 :
    fsExists fsC1 "gfx/a.dds" = true ∧
    convert_image fsC1 initState "gfx/a.dds" 1 =
      (none, { initState with events := [Event.convertImage "gfx/a.dds"] }) ∧
    (convert_image_documented fsC1 initState "gfx/a.dds" 1).1 = some "gfx/a.png" := by
  decide

/-- Claim C2, counterexample: a per-record (per-sprite-block) failure is
caught and logged — the `EXCEPTION with sprite ...` message — but `BAD_FILES`
stays empty: the per-block handler (lines 292-297), unlike the per-file one,
never appends to it. -/
theorem claim_C2_counterexample :
    (read_gfx_file fsC2 ["g.gfx"] [] initState).2.log =
      ["EXCEPTION with sprite \x27n\x27 and texturefile \x27/Gfx/a.dds\x27 in g.gfx",
       "NotImplementedError: Non-relative patterns are unsupported"] ∧
    (read_gfx_file fsC2 ["g.gfx"] [] initState).2.bad_files = [] := by
  decide

/-- Claim C4, counterexample: a new record whose DLC tag equals an existing
record's DLC tag does NOT replace that record when it also shares the
record's texturefile — it is dropped.  After reading `fsC4`, `gfx["n"]` still
holds the first record (frames 1); the second (frames 2, same DLC `None`)
never replaced it. -/
theorem claim_C4_counterexample :
    gfxGet (read_gfx_file fsC4 ["g.gfx"] [] initState).1.1 "n" =
      [⟨"n", "t.dds", 1, none⟩] ∧
    (⟨"n", "t.dds", 2, none⟩ : SpriteType) ∉
      gfxGet (read_gfx_file fsC4 ["g.gfx"] [] initState).1.1 "n" := by
  decide

/-- Claim C5, counterexample: conversion tasks do share mutable state — the
global `BAD_FILES` list.  A single task run against an empty file system
appends to the accumulator, so its final state differs from the shared state
it started from. -/
theorem claim_C5_counterexample :
    (convert_image [] initState "missing.dds" 1).2.bad_files ≠ initState.bad_files ∧
    (convert_image [] initState "missing.dds" 1).2.bad_files =
      [("missing.dds", "missing.dds does not exist!")] := by
  decide

/-- Claim C8, counterexample: image conversion also happens outside the
conversion stage.  In a full run, the trace shows `convert_image` invoked
twice on the same texture — once by `convert_images` and once more from
inside `generate_html` (via `generate_icons_section`, because the `.png` is
still missing); the second conjunct isolates the `generate_html` call and
shows that it alone emits a conversion event. -/
theorem claim_C8_counterexample :
    (mainRun fsC8 argsC8 "now" initState).1.events =
      [Event.readGfx "g.gfx", Event.convertImage "gfx/a.dds",
       Event.convertImage "gfx/a.dds", Event.writeHtml "index.html"] ∧
    (generate_html fsC8 initState goalsC8 [] [] [] [] [] [] [] [] []
        "T" none false "tpl" [] "now").1.events =
      [Event.convertImage "gfx/a.dds", Event.writeHtml "index.html"] := by
  decide

/-- Claim C9, counterexample: the glob produced for an input containing a
metacharacter does not match exactly the strings equal to the input up to
alphabetic case.  For the input `*`, the produced pattern is `*` itself,
which matches `a`, yet `a` is not equal to `*` up to case. -/
theorem claim_C9_counterexample :
    globMatch (get_case_insensitive_glob "*") "a" = true ∧
    eqUpToCase "*".toList "a".toList = false := by
  decide

/-- Entry appended by the join loop for one task outcome: a failure is
recorded (against the last-bound `file_path`), a success adds nothing. -/
def errEntry (lp : String) (r : Except String (Option String)) : Option (String × String) :=
  match r with
  | .ok _ => none
  | .error e => some (lp, e)

/-- Per-task contribution to `BAD_FILES`: a function of the file system and
of the task alone, independent of any other task and of the state. -/
def taskBad (fs : FS) (t : String × Nat) : List (String × String) :=
  if fsExists fs t.1 then [] else [(t.1, t.1 ++ " does not exist!")]

theorem convert_image_bad_files (fs : FS) (st : GState) (p : String) (f : Nat) :
    (convert_image fs st p f).2.bad_files = st.bad_files ++ taskBad fs (p, f) := by
  by_cases h : fsExists fs p = true <;> simp [convert_image, taskBad, h]

theorem convert_image_written (fs : FS) (st : GState) (p : String) (f : Nat) :
    (convert_image fs st p f).2.written = st.written := by
  by_cases h : fsExists fs p = true <;> simp [convert_image, h]

theorem runTasks_bad_files (fs : FS) :
    ∀ (tasks : List (String × Nat)) (st : GState),
      (runTasks fs st tasks).2.bad_files = st.bad_files ++ (tasks.map (taskBad fs)).flatten
  | [], st => by simp [runTasks]
  | t :: ts, st => by
    simp only [runTasks, List.map_cons, List.flatten_cons]
    rw [runTasks_bad_files fs ts, convert_image_bad_files]
    simp

theorem runTasks_written (fs : FS) :
    ∀ (tasks : List (String × Nat)) (st : GState),
      (runTasks fs st tasks).2.written = st.written
  | [], st => by simp [runTasks]
  | t :: ts, st => by
    simp only [runTasks]
    rw [runTasks_written fs ts, convert_image_written]

theorem runTasks_results_ok (fs : FS) :
    ∀ (tasks : List (String × Nat)) (st : GState) (r : Except String (Option String)),
      r ∈ (runTasks fs st tasks).1 → ∃ v, r = .ok v
  | [], _, r, hr => by simp [runTasks] at hr
  | t :: ts, st, r, hr => by
    simp only [runTasks, List.mem_cons] at hr
    rcases hr with h | h
    · exact ⟨_, h⟩
    · exact runTasks_results_ok fs ts _ r h

theorem collectResults_ok (lp : String) :
    ∀ (rs : List (Except String (Option String))) (st : GState),
      (∀ r ∈ rs, ∃ v, r = .ok v) → collectResults lp st rs = st
  | [], st, _ => rfl
  | r :: rs, st, h => by
    obtain ⟨v, hv⟩ := h r (by simp)
    subst hv
    simpa [collectResults] using collectResults_ok lp rs st (fun r hr => h r (by simp [hr]))

/-- Claim C6: the final join of `convert_images` collects per-task failures
without aborting the batch.  For every list of task outcomes, the join loop
is a total function that visits them all: each failure contributes exactly
one recorded `BAD_FILES` entry, successes contribute nothing, and the files
written and the event trace are untouched — so no outcome stops the
processing of the remaining ones. -/
theorem claim_C6 :
    ∀ (lp : String) (rs : List (Except String (Option String))) (st : GState),
      (collectResults lp st rs).bad_files = st.bad_files ++ rs.filterMap (errEntry lp) ∧
      (collectResults lp st rs).written = st.written ∧
      (collectResults lp st rs).events = st.events := by
  intro lp rs
  induction rs with
  | nil => intro st; simp [collectResults]
  | cons r rs ih =>
    intro st
    match r with
    | .ok v => simpa [collectResults, errEntry] using ih st
    | .error e =>
      have := ih { st with
        bad_files := st.bad_files ++ [(lp, e)],
        log := st.log ++ ["EXCEPTION occurred during image conversion.", e] }
      simpa [collectResults, errEntry] using this

theorem convert_images_bad_files (fs : FS) (st : GState)
    (pd : List (List (String × List SpriteType))) (u : Option (List String)) :
    (convert_images fs st pd u).bad_files =
      st.bad_files ++ ((submitTasks pd u).map (taskBad fs)).flatten := by
  have hok := runTasks_results_ok fs (submitTasks pd u) st
  have hbad := runTasks_bad_files fs (submitTasks pd u) st
  rcases h2 : runTasks fs st (submitTasks pd u) with ⟨results, st1⟩
  rw [h2] at hok hbad
  simp only [convert_images, h2]
  cases h : lastPathBound pd with
  | none => exact hbad
  | some lp =>
    show (collectResults lp st1 results).bad_files = _
    rw [collectResults_ok lp results st1 hok]
    exact hbad

/-- Claim C5 (amended): conversion tasks are mutually independent — each
task's effect on the shared `BAD_FILES` accumulator is a function of the file
system and of that task alone, the contributions simply concatenate in task
order (so no ordering between tasks is required and any schedule yields the
same contributions up to permutation), and no task writes a file; however,
the tasks do share the mutable global `BAD_FILES`, to which failing tasks
append (see the counterexample).  The last conjunct lifts this to
`convert_images` itself. -/
theorem claim_C5 :
    ∀ (fs : FS) (st : GState) (tasks : List (String × Nat))
      (pd : List (List (String × List SpriteType))) (u : Option (List String)),
      (runTasks fs st tasks).2.bad_files = st.bad_files ++ (tasks.map (taskBad fs)).flatten ∧
      (runTasks fs st tasks).2.written = st.written ∧
      (convert_images fs st pd u).bad_files =
        st.bad_files ++ ((submitTasks pd u).map (taskBad fs)).flatten := by
  intro fs st tasks pd u
  exact ⟨runTasks_bad_files fs tasks st, runTasks_written fs tasks st,
    convert_images_bad_files fs st pd u⟩

theorem lexLe_total : ∀ a b : List Char, lexLe a b = true ∨ lexLe b a = true
  | [], _ => Or.inl rfl
  | _ :: _, [] => Or.inr rfl
  | a :: as, b :: bs => by
    rcases Nat.lt_trichotomy a.toNat b.toNat with h | h | h
    · left; simp [lexLe, h]
    · rcases lexLe_total as bs with ih | ih
      · left; simp [lexLe, h, ih]
      · right; simp [lexLe, h.symm, ih]
    · right; simp [lexLe, h]

theorem lexLe_trans : ∀ a b c : List Char,
    lexLe a b = true → lexLe b c = true → lexLe a c = true
  | [], _, _, _, _ => rfl
  | a :: as, [], c, h, _ => by simp [lexLe] at h
  | a :: as, b :: bs, [], _, h => by simp [lexLe] at h
  | a :: as, b :: bs, c :: cs, h1, h2 => by
    simp only [lexLe] at h1 h2 ⊢
    by_cases hab1 : a.toNat < b.toNat
    · by_cases hbc1 : b.toNat < c.toNat
      · simp [show a.toNat < c.toNat from by omega]
      · by_cases hbc2 : b.toNat = c.toNat
        · simp [show a.toNat < c.toNat from by omega]
        · simp [hbc1, hbc2] at h2
    · by_cases hab2 : a.toNat = b.toNat
      · by_cases hbc1 : b.toNat < c.toNat
        · simp [show a.toNat < c.toNat from by omega]
        · by_cases hbc2 : b.toNat = c.toNat
          · have h1x : lexLe as bs = true := by simpa [hab1, hab2] using h1
            have h2x : lexLe bs cs = true := by simpa [hbc1, hbc2] using h2
            simp [show ¬ a.toNat < c.toNat from by omega,
              show a.toNat = c.toNat from by omega, lexLe_trans as bs cs h1x h2x]
          · simp [hbc1, hbc2] at h2
      · simp [hab1, hab2] at h1

theorem pyStrLe_trans {a b c : String} (h1 : pyStrLe a b = true) (h2 : pyStrLe b c = true) :
    pyStrLe a c = true :=
  lexLe_trans _ _ _ h1 h2

theorem pyStrLe_total (a b : String) : pyStrLe a b = true ∨ pyStrLe b a = true :=
  lexLe_total _ _

theorem sortInsert_mem {x z : String} : ∀ {l : List String}, z ∈ sortInsert x l → z = x ∨ z ∈ l := by
  intro l
  induction l with
  | nil =>
    intro h
    simp only [sortInsert, List.mem_singleton] at h
    exact Or.inl h
  | cons y ys ih =>
    intro h
    by_cases hc : pyStrLe x y = true
    · simp only [sortInsert, if_pos hc] at h
      rcases List.mem_cons.1 h with rfl | h2
      · exact Or.inl rfl
      · exact Or.inr h2
    · simp only [sortInsert, if_neg hc] at h
      rcases List.mem_cons.1 h with rfl | h2
      · exact Or.inr (List.mem_cons_self _ _)
      · rcases ih h2 with h3 | h3
        · exact Or.inl h3
        · exact Or.inr (List.mem_cons_of_mem _ h3)

theorem sortInsert_pairwise (x : String) :
    ∀ l : List String, l.Pairwise (fun a b => pyStrLe a b = true) →
      (sortInsert x l).Pairwise (fun a b => pyStrLe a b = true) := by
  intro l
  induction l with
  | nil => intro _; simp [sortInsert]
  | cons y ys ih =>
    intro h
    rcases List.pairwise_cons.1 h with ⟨hy, hys⟩
    by_cases hc : pyStrLe x y = true
    · simp only [sortInsert, if_pos hc]
      refine List.pairwise_cons.2 ⟨?_, h⟩
      intro z hz
      rcases List.mem_cons.1 hz with rfl | hz2
      · exact hc
      · exact pyStrLe_trans hc (hy z hz2)
    · simp only [sortInsert, if_neg hc]
      refine List.pairwise_cons.2 ⟨?_, ih hys⟩
      intro z hz
      rcases sortInsert_mem hz with heq | hz2
      · rw [heq]
        rcases pyStrLe_total x y with h1 | h1
        · exact absurd h1 hc
        · exact h1
      · exact hy z hz2

theorem pySort_pairwise :
    ∀ l : List String, (pySort l).Pairwise (fun a b => pyStrLe a b = true)
  | [] => by simp [pySort]
  | x :: xs => by
    simpa [pySort] using sortInsert_pairwise x (pySort xs) (pySort_pairwise xs)

/-- The quantity `icons_num + (1 if the current key has not yet contributed)`:
invariant across the icons of one key. -/
def numPotential (acc : List String × Nat × Bool × GState) : Nat :=
  if acc.2.2.1 then acc.2.1 else acc.2.1 + 1

theorem icon_step_potential (fs : FS) (key : String) (len : Nat) (md : Option DLC)
    (r : Option String) (acc : List String × Nat × Bool × GState) (icon : SpriteType) :
    numPotential (icon_step fs key len md r acc icon) = numPotential acc := by
  rcases acc with ⟨entries, n, a, st⟩
  cases a <;> simp [icon_step, numPotential] <;> split <;> simp

theorem icon_fold_potential (fs : FS) (key : String) (len : Nat) (md : Option DLC)
    (r : Option String) :
    ∀ (icons : List SpriteType) (acc : List String × Nat × Bool × GState),
      numPotential (icons.foldl (icon_step fs key len md r) acc) = numPotential acc
  | [], _ => rfl
  | icon :: icons, acc => by
    rw [List.foldl_cons, icon_fold_potential fs key len md r icons _,
      icon_step_potential]

theorem key_step_num (fs : FS) (r : Option String)
    (acc : List String × Nat × GState) (e : String × List SpriteType) :
    (key_step fs r acc e).2.1 ≤ acc.2.1 + 1 := by
  rcases acc with ⟨entries, n, st⟩
  have h := icon_fold_potential fs e.1 e.2.length
    ((((e.2.find? (fun i => dlcTruthy i.dlc)).map (fun i => i.dlc))).getD none) r e.2
    (entries, n, false, st)
  have h2 : ∀ q : List String × Nat × Bool × GState, q.2.1 ≤ numPotential q := by
    intro q
    rcases q with ⟨_, nn, aa, _⟩
    cases aa <;> simp [numPotential]
  have h3 := h2 (e.2.foldl (icon_step fs e.1 e.2.length
    ((((e.2.find? (fun i => dlcTruthy i.dlc)).map (fun i => i.dlc))).getD none) r)
    (entries, n, false, st))
  rw [h] at h3
  simp only [numPotential] at h3
  simp only [key_step]
  simpa using h3

theorem key_fold_num (fs : FS) (r : Option String) :
    ∀ (dict : Gfx) (acc : List String × Nat × GState),
      (dict.foldl (key_step fs r) acc).2.1 ≤ acc.2.1 + dict.length
  | [], _ => by simp
  | e :: dict, acc => by
    rw [List.foldl_cons]
    calc (dict.foldl (key_step fs r) (key_step fs r acc e)).2.1
        ≤ (key_step fs r acc e).2.1 + dict.length := key_fold_num fs r dict _
      _ ≤ acc.2.1 + 1 + dict.length := by
          have := key_step_num fs r acc e
          omega
      _ = acc.2.1 + (e :: dict).length := by simp [List.length_cons]; omega

/-- Claim C10: for every icons dictionary and optional remove string, the
entries returned by `generate_icons_section` are sorted ascending in
code-point lexicographic order (Python's string order), and the returned icon
count is at most the number of keys: each key contributes at most 1
regardless of how many of its icons produce entries. -/
theorem claim_C10 :
    ∀ (fs : FS) (st : GState) (icons_dict : Gfx) (remove_str : Option String),
      ((generate_icons_section fs st icons_dict remove_str).1.1).Pairwise
        (fun a b => pyStrLe a b = true) ∧
      (generate_icons_section fs st icons_dict remove_str).1.2 ≤ icons_dict.length := by
  intro fs st icons_dict remove_str
  constructor
  · simpa [generate_icons_section] using
      pySort_pairwise (icons_dict.foldl (key_step fs remove_str) ([], 0, st)).1
  · simpa [generate_icons_section] using key_fold_num fs remove_str icons_dict ([], 0, st)

/-- Within one sprite name's record list: pairwise distinct texturefiles and
pairwise distinct DLC tags. -/
def SListInv (l : List SpriteType) : Prop :=
  l.Pairwise (fun a b => a.texturefile ≠ b.texturefile ∧ a.dlc ≠ b.dlc)

/-- The dictionary invariant maintained by `read_gfx_file`. -/
def GfxInv (g : Gfx) : Prop := ∀ k, SListInv (gfxGet g k)

theorem find?_map_set (k : String) (v : List SpriteType) :
    ∀ g : Gfx,
      ((g.map (fun e => if e.1 == k then (k, v) else e)).find? (fun e => e.1 == k)) =
        (if g.any (fun e => e.1 == k) then some (k, v) else none) := by
  intro g
  induction g with
  | nil => rfl
  | cons e g ih =>
    by_cases he : (e.1 == k) = true
    · rw [List.map_cons, if_pos he,
        @List.find?_cons_of_pos _ (fun e => e.1 == k) (k, v) _ (by simp), List.any_cons, he]
      simp
    · rw [List.map_cons, if_neg he,
        @List.find?_cons_of_neg _ (fun e => e.1 == k) e _ he, List.any_cons, ih]
      cases hg : g.any (fun e => e.1 == k) <;> simp [he, hg]

theorem find?_map_set_ne (k : String) (v : List SpriteType) (k2 : String) (hne : k2 ≠ k) :
    ∀ g : Gfx,
      ((g.map (fun e => if e.1 == k then (k, v) else e)).find? (fun e => e.1 == k2)) =
        g.find? (fun e => e.1 == k2) := by
  intro g
  induction g with
  | nil => rfl
  | cons e g ih =>
    by_cases he : (e.1 == k) = true
    · have h1 : e.1 = k := by simpa using he
      have h2 : ¬ ((e.1 == k2) = true) := by simp [h1, Ne.symm hne]
      have h3 : ¬ (((k, v).1 == k2) = true) := by simp [Ne.symm hne]
      rw [List.map_cons, if_pos he,
        @List.find?_cons_of_neg _ (fun e => e.1 == k2) (k, v) _ h3,
        @List.find?_cons_of_neg _ (fun e => e.1 == k2) e _ h2]
      exact ih
    · rw [List.map_cons, if_neg he]
      by_cases he2 : (e.1 == k2) = true
      · rw [@List.find?_cons_of_pos _ (fun e => e.1 == k2) e _ he2,
          @List.find?_cons_of_pos _ (fun e => e.1 == k2) e _ he2]
      · rw [@List.find?_cons_of_neg _ (fun e => e.1 == k2) e _ he2,
          @List.find?_cons_of_neg _ (fun e => e.1 == k2) e _ he2]
        exact ih

theorem find?_append_single (p : String × List SpriteType)
    (pred : String × List SpriteType → Bool) :
    ∀ g : Gfx, (g ++ [p]).find? pred =
      (match g.find? pred with
       | some x => some x
       | none => if pred p then some p else none) := by
  intro g
  induction g with
  | nil =>
    by_cases hp : pred p = true
    · rw [List.nil_append, @List.find?_cons_of_pos _ pred p _ hp]
      simp [hp]
    · rw [List.nil_append, @List.find?_cons_of_neg _ pred p _ hp]
      simp [hp]
  | cons e g ih =>
    by_cases he : pred e = true
    · rw [List.cons_append, @List.find?_cons_of_pos _ pred e _ he,
        @List.find?_cons_of_pos _ pred e _ he]
    · rw [List.cons_append, @List.find?_cons_of_neg _ pred e _ he,
        @List.find?_cons_of_neg _ pred e _ he]
      exact ih

theorem gfxGet_gfxSet (g : Gfx) (k : String) (v : List SpriteType) (k2 : String) :
    gfxGet (gfxSet g k v) k2 = if k2 = k then v else gfxGet g k2 := by
  by_cases hany : g.any (fun e => e.1 == k) = true
  · unfold gfxSet
    rw [if_pos hany]
    by_cases hk : k2 = k
    · rw [hk, if_pos rfl]
      unfold gfxGet
      rw [find?_map_set k v g, if_pos hany]
      rfl
    · rw [if_neg hk]
      unfold gfxGet
      rw [find?_map_set_ne k v k2 hk g]
  · unfold gfxSet
    rw [if_neg hany]
    by_cases hk : k2 = k
    · rw [hk, if_pos rfl]
      have hnone : g.find? (fun e => e.1 == k) = none := by
        rw [List.find?_eq_none]
        intro x hx hbx
        exact hany (List.any_eq_true.2 ⟨x, hx, hbx⟩)
      unfold gfxGet
      rw [find?_append_single, hnone]
      simp
    · rw [if_neg hk]
      have hp : ¬ (((k, v).1 == k2) = true) := by simp [Ne.symm hk]
      unfold gfxGet
      rw [find?_append_single]
      cases hfind : g.find? (fun e => e.1 == k2) with
      | none => simp [hp]
      | some x => simp

theorem replace_or_append_inv (cur : List SpriteType) (s : SpriteType)
    (hinv : SListInv cur) (htex : ∀ e ∈ cur, e.texturefile ≠ s.texturefile) :
    SListInv (replace_or_append cur s) := by
  unfold SListInv at hinv ⊢
  unfold replace_or_append
  by_cases hdlc : cur.any (fun e => decide (e.dlc = s.dlc)) = true
  · rw [if_pos hdlc]
    rw [List.pairwise_map]
    refine hinv.imp_of_mem ?_
    intro a b ha hb hab
    by_cases hda : a.dlc = s.dlc <;> by_cases hdb : b.dlc = s.dlc
    · exact absurd (hda.trans hdb.symm) hab.2
    · simp only [if_pos hda, if_neg hdb]
      exact ⟨fun h => (htex b hb) h.symm, fun h => hdb h.symm⟩
    · simp only [if_neg hda, if_pos hdb]
      exact ⟨htex a ha, hda⟩
    · simpa [if_neg hda, if_neg hdb] using hab
  · rw [if_neg hdlc]
    rw [List.pairwise_append]
    refine ⟨hinv, by simp, ?_⟩
    intro a ha b hb
    simp only [List.mem_singleton] at hb
    subst hb
    refine ⟨htex a ha, ?_⟩
    intro h
    exact hdlc (List.any_eq_true.2 ⟨a, ha, by simpa using h⟩)

theorem process_block_inv (fs : FS) (md : Option DLC) (path : String)
    (gfx gfx_files : Gfx) (st : GState) (block : List Char) (h : GfxInv gfx) :
    GfxInv (process_block fs md path (gfx, gfx_files, st) block).1 := by
  simp only [process_block]
  split
  · exact h
  · split
    · exact h
    · split
      · -- record inserted or dropped
        split
        · exact h
        · rename_i hguard
          intro k
          rw [gfxGet_gfxSet]
          split
          · refine replace_or_append_inv _ _ (h _) ?_
            intro e he hcontra
            exact hguard (List.any_eq_true.2 ⟨e, he, by simpa using hcontra⟩)
          · exact h k
      · exact h

theorem blocks_fold_inv (fs : FS) (md : Option DLC) (path : String) :
    ∀ (blocks : List (List Char)) (acc : Gfx × Gfx × GState), GfxInv acc.1 →
      GfxInv (blocks.foldl (process_block fs md path) acc).1
  | [], _, h => h
  | b :: blocks, acc, h => by
    rw [List.foldl_cons]
    rcases acc with ⟨gfx, gfx_files, st⟩
    exact blocks_fold_inv fs md path blocks _ (process_block_inv fs md path gfx gfx_files st b h)

theorem process_path_inv (fs : FS) (dlcs : List DLC) (acc : Gfx × Gfx × GState)
    (p : String) (h : GfxInv acc.1) : GfxInv (process_path fs dlcs acc p).1 := by
  rcases acc with ⟨gfx, gfx_files, st⟩
  simp only [process_path]
  split
  · exact h
  · exact blocks_fold_inv fs _ _ _ _ h

theorem paths_fold_inv (fs : FS) (dlcs : List DLC) :
    ∀ (paths : List String) (acc : Gfx × Gfx × GState), GfxInv acc.1 →
      GfxInv (paths.foldl (process_path fs dlcs) acc).1
  | [], _, h => h
  | p :: paths, acc, h => by
    rw [List.foldl_cons]
    exact paths_fold_inv fs dlcs paths _ (process_path_inv fs dlcs acc p h)

/-- Claim C4 (amended): after `read_gfx_file` processes any inputs, no sprite
name's list holds two records with the same texturefile; and whenever a new
record's texturefile differs from every existing record's, a new record whose
DLC tag equals an existing record's DLC tag replaces that record instead of
being appended (same length, new record present, records with other DLC tags
kept).  A new record that shares a texturefile with an existing record is
dropped instead (see the counterexample). -/
theorem claim_C4 :
    (∀ (fs : FS) (paths : List String) (dlcs : List DLC) (st : GState) (k : String),
      (gfxGet (read_gfx_file fs paths dlcs st).1.1 k).Pairwise
        (fun a b => a.texturefile ≠ b.texturefile)) ∧
    (∀ (cur : List SpriteType) (s : SpriteType),
      (∀ e ∈ cur, e.texturefile ≠ s.texturefile) →
      (∃ e ∈ cur, e.dlc = s.dlc) →
      (replace_or_append cur s).length = cur.length ∧
      s ∈ replace_or_append cur s ∧
      (∀ e ∈ cur, e.dlc ≠ s.dlc → e ∈ replace_or_append cur s)) := by
  constructor
  · intro fs paths dlcs st k
    have hinv : GfxInv (read_gfx_file fs paths dlcs st).1.1 := by
      simp only [read_gfx_file]
      exact paths_fold_inv fs dlcs paths ([], [], st)
        (fun k => by simp [gfxGet, SListInv])
    exact (hinv k).imp (fun h => h.1)
  · intro cur s htex hdlc
    have hany : cur.any (fun e => decide (e.dlc = s.dlc)) = true := by
      rcases hdlc with ⟨e, he, hd⟩
      exact List.any_eq_true.2 ⟨e, he, by simpa using hd⟩
    refine ⟨?_, ?_, ?_⟩
    · simp [replace_or_append, hany]
    · rcases hdlc with ⟨e, he, hd⟩
      simp only [replace_or_append, hany, if_pos]
      exact List.mem_map.2 ⟨e, he, by simp [hd]⟩
    · intro e he hne
      simp only [replace_or_append, hany, if_pos]
      exact List.mem_map.2 ⟨e, he, by simp [hne]⟩

/-- Concrete instantiation of `claim_C4`: the invariant on the C4 run, and a
replacement where the records' DLC tags agree but texturefiles differ. -/
theorem claim_C4_witness :
    (gfxGet (read_gfx_file fsC4 ["g.gfx"] [] initState).1.1 "n").Pairwise
      (fun a b => a.texturefile ≠ b.texturefile) ∧
    (replace_or_append [⟨"a", "t1", 1, none⟩] ⟨"b", "t2", 2, none⟩).length = 1 ∧
    (⟨"b", "t2", 2, none⟩ : SpriteType) ∈
      replace_or_append [⟨"a", "t1", 1, none⟩] ⟨"b", "t2", 2, none⟩ :=
  ⟨claim_C4.1 fsC4 ["g.gfx"] [] initState "n",
   (claim_C4.2 [⟨"a", "t1", 1, none⟩] ⟨"b", "t2", 2, none⟩
     (by decide) ⟨⟨"a", "t1", 1, none⟩, by simp, rfl⟩).1,
   (claim_C4.2 [⟨"a", "t1", 1, none⟩] ⟨"b", "t2", 2, none⟩
     (by decide) ⟨⟨"a", "t1", 1, none⟩, by simp, rfl⟩).2.1⟩

/-- Claim C2 (amended): per-file failures during gfx reading and failing
image conversions are caught, logged, recorded in `BAD_FILES`, and processing
continues with the remaining inputs; per-record (per-sprite-block) failures
are caught and logged and processing continues with the remaining blocks, but
they are NOT recorded in `BAD_FILES` — the per-block handler only prints.
Conjunct 1: an unreadable gfx file is recorded and the remaining paths are
processed as if the run had started after it.  Conjunct 2: a sprite block
whose texturefile resolution raises leaves both dictionaries and `BAD_FILES`
exactly as the resolution left them, adding only log lines.  Conjunct 3: a
conversion of a missing image records the failure in `BAD_FILES`. -/
theorem claim_C2 :
    (∀ (fs : FS) (p : String) (ps : List String) (dlcs : List DLC) (st : GState) (e : String),
      fsRead fs (mkPath p) = .error e →
      read_gfx_file fs (p :: ps) dlcs st =
        read_gfx_file fs ps dlcs
          { st with events := st.events ++ [Event.readGfx (mkPath p)],
                    bad_files := st.bad_files ++ [(mkPath p, e)],
                    log := st.log ++ ["EXCEPTION with " ++ mkPath p, e] }) ∧
    (∀ (fs : FS) (md : Option DLC) (path : String) (gfx gfx_files : Gfx) (st : GState)
       (block texRaw : List Char) (e : String) (st1 : GState),
      blockTex block = some texRaw →
      resolve_texturefile fs md st (mkPath (stripLeadSlash texRaw).asString) = (.error e, st1) →
      process_block fs md path (gfx, gfx_files, st) block =
        (gfx, gfx_files,
         { st1 with log := st1.log ++
            ["EXCEPTION with sprite \x27" ++ blockName block ++ "\x27 and texturefile \x27" ++
             mkPath (stripLeadSlash texRaw).asString ++ "\x27 in " ++ path, e] })) ∧
    (∀ (fs : FS) (st : GState) (p : String) (f : Nat),
      fsExists fs p = false →
      convert_image fs st p f =
        (none,
         { st with events := st.events ++ [Event.convertImage p],
                   bad_files := st.bad_files ++ [(p, p ++ " does not exist!")],
                   log := st.log ++ [p ++ " does not exist!"] })) := by
  refine ⟨?_, ?_, ?_⟩
  · intro fs p ps dlcs st e hread
    simp only [read_gfx_file, List.foldl_cons, process_path, hread]
  · intro fs md path gfx gfx_files st block texRaw e st1 htex hres
    simp only [process_block, htex, hres]
  · intro fs st p f hex
    simp [convert_image, hex]

/-- Concrete instantiation of `claim_C2`: a missing gfx file, the C2 sprite
block whose resolution raises, and a missing image. -/
theorem claim_C2_witness :
    (read_gfx_file [] ["x.gfx"] [] initState =
      read_gfx_file [] [] []
        { initState with events := [Event.readGfx "x.gfx"],
                         bad_files := [("x.gfx", "FileNotFoundError: x.gfx")],
                         log := ["EXCEPTION with x.gfx", "FileNotFoundError: x.gfx"] }) ∧
    (process_block [] none "g.gfx" ([], [], initState)
        "spriteType = \x7b name = \"n\" texturefile = \"//Gfx/a.dds\" \x7d".toList =
      ([], [],
       { initState with log :=
          ["EXCEPTION with sprite \x27n\x27 and texturefile \x27/Gfx/a.dds\x27 in g.gfx",
           "NotImplementedError: Non-relative patterns are unsupported"] })) ∧
    (convert_image [] initState "m.dds" 1 =
      (none,
       { initState with events := [Event.convertImage "m.dds"],
                        bad_files := [("m.dds", "m.dds does not exist!")],
                        log := ["m.dds does not exist!"] })) :=
  ⟨claim_C2.1 [] "x.gfx" [] [] initState "FileNotFoundError: x.gfx" (by rfl),
   by
    have h := claim_C2.2.1 [] none "g.gfx" [] [] initState
      "spriteType = \x7b name = \"n\" texturefile = \"//Gfx/a.dds\" \x7d".toList
      "//Gfx/a.dds".toList
      "NotImplementedError: Non-relative patterns are unsupported" initState
      (by rfl) (by rfl)
    exact h.trans (by decide),
   claim_C2.2.2 [] initState "m.dds" 1 (by decide)⟩

/-- The shape of every state change in the pipeline: each global field only
ever grows by appending; the events appended are `ev` and the files written
are `w`. -/
def Delta (st st' : GState) (ev : List Event) (w : List (String × String)) : Prop :=
  ∃ b d l, st' = ⟨st.bad_files ++ b, st.duplicates ++ d, st.log ++ l,
    st.written ++ w, st.events ++ ev⟩

theorem delta_self (st : GState) : Delta st st [] [] :=
  ⟨[], [], [], by cases st <;> simp⟩

theorem delta_comp {st st' st'' : GState} {ev ev' : List Event}
    {w w' : List (String × String)} (h1 : Delta st st' ev w) (h2 : Delta st' st'' ev' w') :
    Delta st st'' (ev ++ ev') (w ++ w') := by
  obtain ⟨b1, d1, l1, e1⟩ := h1
  obtain ⟨b2, d2, l2, e2⟩ := h2
  refine ⟨b1 ++ b2, d1 ++ d2, l1 ++ l2, ?_⟩
  subst e2
  subst e1
  simp

theorem delta_comp_nil {st st' st'' : GState}
    (h1 : Delta st st' [] []) (h2 : Delta st' st'' [] []) : Delta st st'' [] [] := by
  simpa using delta_comp h1 h2

theorem Delta.written_eq {st st' : GState} {ev : List Event}
    {w : List (String × String)} (h : Delta st st' ev w) : st'.written = st.written ++ w := by
  obtain ⟨b, d, l, e⟩ := h
  subst e
  rfl

theorem Delta.events_eq {st st' : GState} {ev : List Event}
    {w : List (String × String)} (h : Delta st st' ev w) : st'.events = st.events ++ ev := by
  obtain ⟨b, d, l, e⟩ := h
  subst e
  rfl

theorem convert_image_delta (fs : FS) (st : GState) (p : String) (f : Nat) :
    Delta st (convert_image fs st p f).2 [Event.convertImage p] [] := by
  by_cases h : fsExists fs p = true
  · exact ⟨[], [], [], by cases st <;> simp [convert_image, h]⟩
  · exact ⟨[(p, p ++ " does not exist!")], [], [p ++ " does not exist!"],
      by cases st <;> simp [convert_image, h]⟩

theorem try_ci_delta (fs : FS) (st : GState) (t : String) :
    Delta st (try_case_insensitive_file fs st t).2 [] [] := by
  unfold try_case_insensitive_file
  cases hg : globFirst fs (get_case_insensitive_glob t) with
  | error e => exact delta_self st
  | ok o =>
    cases o with
    | none => exact delta_self st
    | some found =>
      exact ⟨[(t, "WRONG CASE: " ++ t ++ " doesn\x27t exist, but " ++ found ++ " does!")],
        [], ["WRONG CASE: " ++ t ++ " doesn\x27t exist, but " ++ found ++ " does!"],
        by cases st <;> simp⟩

theorem resolve_delta (fs : FS) (md : Option DLC) (st : GState) (t : String) :
    Delta st (resolve_texturefile fs md st t).2 [] [] := by
  cases md with
  | none =>
    cases h : fsExists fs t with
    | true =>
      simp only [resolve_texturefile, h, if_true]
      exact delta_self st
    | false =>
      simp [resolve_texturefile, h]
      exact try_ci_delta fs st t
  | some dlc =>
    cases h1 : fsExists fs (pathJoin dlc.gfx_folder t) with
    | true =>
      simp [resolve_texturefile, h1]
      exact delta_self st
    | false =>
      simp only [resolve_texturefile, h1, Bool.false_eq_true, if_false]
      rcases hci : try_case_insensitive_file fs st (pathJoin dlc.gfx_folder t) with ⟨res, st1⟩
      have hd1 : Delta st st1 [] [] := by
        have := try_ci_delta fs st (pathJoin dlc.gfx_folder t)
        rwa [hci] at this
      cases res with
      | error e => exact hd1
      | ok dtf2 =>
        show Delta st
          (if fsExists fs (if fsExists fs dtf2 = true then dtf2 else t) = true then
            (Except.ok (if fsExists fs dtf2 = true then dtf2 else t), st1)
          else try_case_insensitive_file fs st1
            (if fsExists fs dtf2 = true then dtf2 else t)).2 [] []
        by_cases h2 : fsExists fs (if fsExists fs dtf2 = true then dtf2 else t) = true
        · rw [if_pos h2]
          exact hd1
        · rw [if_neg h2]
          exact delta_comp_nil hd1 (try_ci_delta fs st1 _)

theorem process_block_delta (fs : FS) (md : Option DLC) (path : String)
    (gfx gfx_files : Gfx) (st : GState) (block : List Char) :
    Delta st (process_block fs md path (gfx, gfx_files, st) block).2.2 [] [] := by
  cases htex : blockTex block with
  | none =>
    simp only [process_block, htex]
    exact delta_self st
  | some texRaw =>
    rcases hres : resolve_texturefile fs md st (mkPath (stripLeadSlash texRaw).asString)
      with ⟨res, st1⟩
    have hd1 : Delta st st1 [] [] := by
      have := resolve_delta fs md st (mkPath (stripLeadSlash texRaw).asString)
      rwa [hres] at this
    cases res with
    | error e =>
      simp only [process_block, htex, hres]
      refine delta_comp_nil hd1
        ⟨[], [],
         ["EXCEPTION with sprite \x27" ++ blockName block ++ "\x27 and texturefile \x27" ++
          mkPath (stripLeadSlash texRaw).asString ++ "\x27 in " ++ path, e], ?_⟩
      cases st1 <;> simp
    | ok tex =>
      simp only [process_block, htex, hres]
      split
      · split
        · exact hd1
        · exact hd1
      · exact hd1

theorem blocks_fold_delta (fs : FS) (md : Option DLC) (path : String) :
    ∀ (blocks : List (List Char)) (acc : Gfx × Gfx × GState),
      Delta acc.2.2 ((blocks.foldl (process_block fs md path) acc)).2.2 [] []
  | [], acc => delta_self acc.2.2
  | b :: blocks, acc => by
    rw [List.foldl_cons]
    rcases acc with ⟨gfx, gfx_files, st⟩
    exact delta_comp_nil (process_block_delta fs md path gfx gfx_files st b)
      (blocks_fold_delta fs md path blocks _)

theorem process_path_delta (fs : FS) (dlcs : List DLC) (acc : Gfx × Gfx × GState)
    (p : String) :
    Delta acc.2.2 (process_path fs dlcs acc p).2.2 [Event.readGfx (mkPath p)] [] := by
  rcases acc with ⟨gfx, gfx_files, st⟩
  simp only [process_path]
  cases hread : fsRead fs (mkPath p) with
  | error e =>
    exact ⟨[(mkPath p, e)], [], ["EXCEPTION with " ++ mkPath p, e],
      by cases st <;> simp⟩
  | ok raw =>
    have h1 : Delta st { st with events := st.events ++ [Event.readGfx (mkPath p)] }
        [Event.readGfx (mkPath p)] [] := ⟨[], [], [], by cases st <;> simp⟩
    have h2 := blocks_fold_delta fs (find_dlc dlcs (mkPath p)) (mkPath p)
      (findSpriteBlocks (replaceNewlines (stripComments raw.toList)))
      (gfx, gfx_files, { st with events := st.events ++ [Event.readGfx (mkPath p)] })
    simpa using delta_comp h1 h2

theorem paths_fold_delta (fs : FS) (dlcs : List DLC) :
    ∀ (paths : List String) (acc : Gfx × Gfx × GState),
      Delta acc.2.2 ((paths.foldl (process_path fs dlcs) acc)).2.2
        (paths.map (fun p => Event.readGfx (mkPath p))) []
  | [], acc => delta_self acc.2.2
  | p :: paths, acc => by
    rw [List.foldl_cons, List.map_cons]
    have h1 := process_path_delta fs dlcs acc p
    have h2 := paths_fold_delta fs dlcs paths (process_path fs dlcs acc p)
    simpa using delta_comp h1 h2

theorem read_gfx_file_delta (fs : FS) (paths : List String) (dlcs : List DLC) (st : GState) :
    Delta st (read_gfx_file fs paths dlcs st).2
      (paths.map (fun p => Event.readGfx (mkPath p))) [] := by
  simpa [read_gfx_file] using paths_fold_delta fs dlcs paths ([], [], st)

theorem read_gfx_delta (fs : FS) (paths : List String) (dlcs : List DLC) (st : GState) :
    ∃ evs, (∀ e ∈ evs, ∃ p, e = Event.readGfx p) ∧
      Delta st (read_gfx fs paths dlcs st).2 evs [] := by
  unfold read_gfx
  refine ⟨_, ?_, read_gfx_file_delta fs _ dlcs st⟩
  intro e he
  simp only [List.mem_map] at he
  obtain ⟨p, _, hp⟩ := he
  exact ⟨mkPath p, hp.symm⟩

theorem runTasks_delta (fs : FS) :
    ∀ (tasks : List (String × Nat)) (st : GState),
      Delta st (runTasks fs st tasks).2 (tasks.map (fun t => Event.convertImage t.1)) []
  | [], st => delta_self st
  | t :: ts, st => by
    rw [List.map_cons]
    have h1 := convert_image_delta fs st t.1 t.2
    have h2 := runTasks_delta fs ts (convert_image fs st t.1 t.2).2
    simpa [runTasks] using delta_comp h1 h2

theorem collectResults_delta (lp : String) (rs : List (Except String (Option String)))
    (st : GState) : Delta st (collectResults lp st rs) [] [] := by
  induction rs generalizing st with
  | nil => exact delta_self st
  | cons r rs ih =>
    match r with
    | .ok v => simpa [collectResults] using ih st
    | .error e =>
      refine delta_comp_nil (?_ : Delta st _ [] []) (ih _)
      exact ⟨[(lp, e)], [], ["EXCEPTION occurred during image conversion.", e],
        by cases st <;> simp [collectResults]⟩

theorem convert_images_delta (fs : FS) (st : GState)
    (pd : List (List (String × List SpriteType))) (u : Option (List String)) :
    ∃ evs, (∀ e ∈ evs, ∃ p, e = Event.convertImage p) ∧
      Delta st (convert_images fs st pd u) evs [] := by
  refine ⟨(submitTasks pd u).map (fun t => Event.convertImage t.1), ?_, ?_⟩
  · intro e he
    simp only [List.mem_map] at he
    obtain ⟨t, _, ht⟩ := he
    exact ⟨t.1, ht.symm⟩
  · have h1 := runTasks_delta fs (submitTasks pd u) st
    rcases h2 : runTasks fs st (submitTasks pd u) with ⟨results, st1⟩
    rw [h2] at h1
    simp only [convert_images, h2]
    cases hl : lastPathBound pd with
    | none => exact h1
    | some lp =>
      show Delta st (collectResults lp st1 results) _ []
      simpa using delta_comp h1 (collectResults_delta lp results st1)

theorem mem_append_all {P : Event → Prop} {l1 l2 : List Event}
    (h1 : ∀ e ∈ l1, P e) (h2 : ∀ e ∈ l2, P e) : ∀ e ∈ l1 ++ l2, P e := by
  intro e he
  rcases List.mem_append.1 he with h | h
  exacts [h1 e h, h2 e h]

theorem delta_update (st : GState) (l : List String) (ev : List Event)
    (w : List (String × String)) :
    Delta st { st with log := st.log ++ l, written := st.written ++ w,
                       events := st.events ++ ev } ev w :=
  ⟨[], [], l, by cases st <;> simp⟩

theorem icon_step_delta (fs : FS) (key : String) (len : Nat) (md : Option DLC)
    (r : Option String) (acc : List String × Nat × Bool × GState) (icon : SpriteType) :
    ∃ evs, (∀ e ∈ evs, ∃ p, e = Event.convertImage p) ∧
      Delta acc.2.2.2 (icon_step fs key len md r acc icon).2.2.2 evs [] := by
  rcases acc with ⟨entries, n, a, st⟩
  have hdup : Delta st
      { st with duplicates := st.duplicates ++ [(icon.name, (icon.texturefile, key, icon.dlc))] }
      [] [] :=
    ⟨[], [(icon.name, (icon.texturefile, key, icon.dlc))], [], by cases st <;> simp⟩
  by_cases himg : fsExists fs
      (pathJoin (parentDir icon.texturefile) (fileStem icon.texturefile ++ ".png")) = true
  · refine ⟨[], by simp, ?_⟩
    simp only [icon_step, himg, Bool.not_true, Bool.false_eq_true, if_false, if_true]
    exact hdup
  · refine ⟨[Event.convertImage icon.texturefile], by simp, ?_⟩
    simp only [icon_step, himg, Bool.not_false, Bool.false_eq_true, if_false, if_true]
    exact delta_comp hdup (convert_image_delta fs _ icon.texturefile icon.frames)

theorem icons_fold_delta (fs : FS) (key : String) (len : Nat) (md : Option DLC)
    (r : Option String) :
    ∀ (icons : List SpriteType) (acc : List String × Nat × Bool × GState),
      ∃ evs, (∀ e ∈ evs, ∃ p, e = Event.convertImage p) ∧
        Delta acc.2.2.2 ((icons.foldl (icon_step fs key len md r) acc)).2.2.2 evs []
  | [], acc => ⟨[], by simp, delta_self acc.2.2.2⟩
  | icon :: icons, acc => by
    rw [List.foldl_cons]
    obtain ⟨e1, h1, d1⟩ := icon_step_delta fs key len md r acc icon
    obtain ⟨e2, h2, d2⟩ := icons_fold_delta fs key len md r icons
      (icon_step fs key len md r acc icon)
    exact ⟨e1 ++ e2, mem_append_all h1 h2, by simpa using delta_comp d1 d2⟩

theorem key_step_delta (fs : FS) (r : Option String)
    (acc : List String × Nat × GState) (e : String × List SpriteType) :
    ∃ evs, (∀ ev ∈ evs, ∃ p, ev = Event.convertImage p) ∧
      Delta acc.2.2 (key_step fs r acc e).2.2 evs [] := by
  rcases acc with ⟨entries, n, st⟩
  simp only [key_step]
  exact icons_fold_delta fs e.1 e.2.length _ r e.2 (entries, n, false, st)

theorem keys_fold_delta (fs : FS) (r : Option String) :
    ∀ (dict : Gfx) (acc : List String × Nat × GState),
      ∃ evs, (∀ ev ∈ evs, ∃ p, ev = Event.convertImage p) ∧
        Delta acc.2.2 ((dict.foldl (key_step fs r) acc)).2.2 evs []
  | [], acc => ⟨[], by simp, delta_self acc.2.2⟩
  | e :: dict, acc => by
    rw [List.foldl_cons]
    obtain ⟨e1, h1, d1⟩ := key_step_delta fs r acc e
    obtain ⟨e2, h2, d2⟩ := keys_fold_delta fs r dict (key_step fs r acc e)
    exact ⟨e1 ++ e2, mem_append_all h1 h2, by simpa using delta_comp d1 d2⟩

theorem generate_icons_section_delta (fs : FS) (st : GState) (dict : Gfx)
    (r : Option String) :
    ∃ evs, (∀ ev ∈ evs, ∃ p, ev = Event.convertImage p) ∧
      Delta st (generate_icons_section fs st dict r).2 evs [] := by
  simp only [generate_icons_section]
  exact keys_fold_delta fs r dict ([], 0, st)

theorem sectionsFold_delta (fs : FS) :
    ∀ (secs : List TemplateSection) (html : String) (st : GState),
      ∃ evs, (∀ ev ∈ evs, ∃ p, ev = Event.convertImage p) ∧
        Delta st (sectionsFold fs secs (html, st)).2 evs []
  | [], html, st => ⟨[], by simp, delta_self st⟩
  | sec :: secs, html, st => by
    obtain ⟨e1, h1, d1⟩ := generate_icons_section_delta fs st sec.2.2.1 sec.2.2.2
    obtain ⟨e2, h2, d2⟩ := sectionsFold_delta fs secs
      (pyReplace (pyReplace html sec.1
        (String.join (generate_icons_section fs st sec.2.2.1 sec.2.2.2).1.1)) sec.2.1
        (toString (generate_icons_section fs st sec.2.2.1 sec.2.2.2).1.2))
      (generate_icons_section fs st sec.2.2.1 sec.2.2.2).2
    refine ⟨e1 ++ e2, mem_append_all h1 h2, ?_⟩
    simpa [sectionsFold] using delta_comp d1 d2

theorem generate_html_missing (fs : FS) (st : GState)
    (g1 g2 g3 g4 g5 g6 g7 g8 g9 g10 : Gfx) (title : String) (favicon : Option String)
    (rd : Bool) (tp : String) (dlcs : List DLC) (now : String)
    (h : fsExists fs tp = false) :
    generate_html fs st g1 g2 g3 g4 g5 g6 g7 g8 g9 g10 title favicon rd tp dlcs now =
      ({ st with log := st.log ++ [tp ++ " doesn\x27t exist!"] }, some 1) := by
  simp [generate_html, h]

theorem generate_html_present (fs : FS) (st : GState)
    (g1 g2 g3 g4 g5 g6 g7 g8 g9 g10 : Gfx) (title : String) (favicon : Option String)
    (rd : Bool) (tp : String) (dlcs : List DLC) (now : String)
    (h : fsExists fs tp = true) :
    ∃ evs html,
      (∀ ev ∈ evs, ∃ p, ev = Event.convertImage p) ∧
      Delta st (generate_html fs st g1 g2 g3 g4 g5 g6 g7 g8 g9 g10
          title favicon rd tp dlcs now).1
        (evs ++ [Event.writeHtml "index.html"]) [("index.html", html)] ∧
      (generate_html fs st g1 g2 g3 g4 g5 g6 g7 g8 g9 g10
          title favicon rd tp dlcs now).2 = none := by
  obtain ⟨evs, hconv, hd⟩ := sectionsFold_delta fs
    (theSections g1 g2 g3 g4 g5 g6 g7 g8 g9 g10)
    (match fsRead fs tp with | .ok c => c | .error _ => "")
    st
  have h2 : (generate_html fs st g1 g2 g3 g4 g5 g6 g7 g8 g9 g10
      title favicon rd tp dlcs now).2 = none := by
    simp [generate_html, h]
  exact ⟨evs, _, hconv,
    (by
      simp only [generate_html, h, Bool.not_true, Bool.false_eq_true, if_false]
      exact (by simpa using delta_comp hd (delta_update _ ["Writing index.html..."]
        [Event.writeHtml "index.html"] [("index.html", _)]))), h2⟩

/-- Claim C3: after argument parsing, the pipeline terminates with exit status
1 before writing any output exactly when the template file does not exist; a
missing template is the only abort, every other input proceeds to the end of
the run. -/
theorem claim_C3 :
    (∀ (fs : FS) (args : Args) (now : String) (st : GState),
      fsExists fs args.template_path = false →
      (mainRun fs args now st).2 = some 1 ∧ (mainRun fs args now st).1.written = st.written) ∧
    (∀ (fs : FS) (args : Args) (now : String) (st : GState),
      fsExists fs args.template_path = true →
      (mainRun fs args now st).2 = none) := by
  constructor
  · intro fs args now st h
    set R1 := read_gfx fs args.goals args.dlc st with hR1
    set R2 := read_gfx fs args.ideas args.dlc R1.2 with hR2
    set R3 := read_gfx fs args.character_ideas args.dlc R2.2 with hR3
    set R4 := read_gfx fs args.texticons args.dlc R3.2 with hR4
    set R5 := read_gfx fs args.events args.dlc R4.2 with hR5
    set R6 := read_gfx fs args.news_events args.dlc R5.2 with hR6
    set R7 := read_gfx fs args.agencies args.dlc R6.2 with hR7
    set R8 := read_gfx fs args.decisions args.dlc R7.2 with hR8
    set R9 := read_gfx fs args.decisions_cat args.dlc R8.2 with hR9
    set R10 := read_gfx fs args.decisions_pics args.dlc R9.2 with hR10
    set SC := convert_images fs R10.2
      [R1.1.2, R2.1.2, R3.1.2, R4.1.2, R5.1.2, R6.1.2, R7.1.2, R8.1.2, R9.1.2, R10.1.2]
      (match args.modified_images with
       | some (x :: xs) => some (x :: xs)
       | _ => none) with hSC
    have hmain : mainRun fs args now st =
        generate_html fs SC R1.1.1 R2.1.1 R3.1.1 R4.1.1 R5.1.1 R6.1.1 R7.1.1 R8.1.1
          R9.1.1 R10.1.1 args.title args.favicon args.replace_date args.template_path
          args.dlc now := rfl
    rw [hmain, generate_html_missing fs SC _ _ _ _ _ _ _ _ _ _ _ _ _ _ _ _ h]
    refine ⟨rfl, ?_⟩
    obtain ⟨A1, _, d1⟩ := read_gfx_delta fs args.goals args.dlc st
    obtain ⟨A2, _, d2⟩ := read_gfx_delta fs args.ideas args.dlc R1.2
    obtain ⟨A3, _, d3⟩ := read_gfx_delta fs args.character_ideas args.dlc R2.2
    obtain ⟨A4, _, d4⟩ := read_gfx_delta fs args.texticons args.dlc R3.2
    obtain ⟨A5, _, d5⟩ := read_gfx_delta fs args.events args.dlc R4.2
    obtain ⟨A6, _, d6⟩ := read_gfx_delta fs args.news_events args.dlc R5.2
    obtain ⟨A7, _, d7⟩ := read_gfx_delta fs args.agencies args.dlc R6.2
    obtain ⟨A8, _, d8⟩ := read_gfx_delta fs args.decisions args.dlc R7.2
    obtain ⟨A9, _, d9⟩ := read_gfx_delta fs args.decisions_cat args.dlc R8.2
    obtain ⟨A10, _, d10⟩ := read_gfx_delta fs args.decisions_pics args.dlc R9.2
    obtain ⟨B, _, dB⟩ := convert_images_delta fs R10.2
      [R1.1.2, R2.1.2, R3.1.2, R4.1.2, R5.1.2, R6.1.2, R7.1.2, R8.1.2, R9.1.2, R10.1.2]
      (match args.modified_images with
       | some (x :: xs) => some (x :: xs)
       | _ => none)
    have dAll := delta_comp (delta_comp (delta_comp (delta_comp (delta_comp (delta_comp
      (delta_comp (delta_comp (delta_comp (delta_comp d1 d2) d3) d4) d5) d6) d7) d8) d9)
      d10) dB
    have hw := dAll.written_eq
    simpa using hw
  · intro fs args now st h
    set R1 := read_gfx fs args.goals args.dlc st with hR1
    set R2 := read_gfx fs args.ideas args.dlc R1.2 with hR2
    set R3 := read_gfx fs args.character_ideas args.dlc R2.2 with hR3
    set R4 := read_gfx fs args.texticons args.dlc R3.2 with hR4
    set R5 := read_gfx fs args.events args.dlc R4.2 with hR5
    set R6 := read_gfx fs args.news_events args.dlc R5.2 with hR6
    set R7 := read_gfx fs args.agencies args.dlc R6.2 with hR7
    set R8 := read_gfx fs args.decisions args.dlc R7.2 with hR8
    set R9 := read_gfx fs args.decisions_cat args.dlc R8.2 with hR9
    set R10 := read_gfx fs args.decisions_pics args.dlc R9.2 with hR10
    set SC := convert_images fs R10.2
      [R1.1.2, R2.1.2, R3.1.2, R4.1.2, R5.1.2, R6.1.2, R7.1.2, R8.1.2, R9.1.2, R10.1.2]
      (match args.modified_images with
       | some (x :: xs) => some (x :: xs)
       | _ => none) with hSC
    have hmain : mainRun fs args now st =
        generate_html fs SC R1.1.1 R2.1.1 R3.1.1 R4.1.1 R5.1.1 R6.1.1 R7.1.1 R8.1.1
          R9.1.1 R10.1.1 args.title args.favicon args.replace_date args.template_path
          args.dlc now := rfl
    rw [hmain]
    obtain ⟨evs, html, _, _, hnone⟩ := generate_html_present fs SC R1.1.1 R2.1.1 R3.1.1
      R4.1.1 R5.1.1 R6.1.1 R7.1.1 R8.1.1 R9.1.1 R10.1.1 args.title args.favicon
      args.replace_date args.template_path args.dlc now h
    exact hnone

/-- Concrete instantiation of `claim_C3`: a run without the template aborts
with status 1 and writes nothing; the same run with the template present
finishes without an exit code. -/
theorem claim_C3_witness :
    ((mainRun [] argsC8 "now" initState).2 = some 1 ∧
      (mainRun [] argsC8 "now" initState).1.written = initState.written) ∧
    (mainRun fsC8 argsC8 "now" initState).2 = none :=
  ⟨claim_C3.1 [] argsC8 "now" initState (by decide),
   claim_C3.2 fsC8 argsC8 "now" initState (by decide)⟩

theorem delta_log (st : GState) (l : List String) :
    Delta st { st with log := st.log ++ l } [] [] :=
  ⟨[], [], l, by cases st <;> simp⟩

/-- Claim C8 (amended): the pipeline is linear — `mainRun` first reads gfx
files (trace segment `A`: only read events), then runs the conversion batch
(segment `B`: only conversion events), then `generate_html` substitutes and
writes (final segment: conversion events `C` for icons whose `.png` is still
missing, then the single write of `index.html`).  Conversions do occur inside
the substitution stage (segment `C`; see the counterexample), and no output
file is written before the substitution stage: the only write in the whole
run is the final `index.html`, and an aborting run (missing template) writes
nothing. -/
theorem claim_C8 :
    ∀ (fs : FS) (args : Args) (now : String) (st : GState),
      ∃ A B C,
        (∀ e ∈ A, ∃ p, e = Event.readGfx p) ∧
        (∀ e ∈ B, ∃ p, e = Event.convertImage p) ∧
        (∀ e ∈ C, ∃ p, e = Event.convertImage p) ∧
        ((fsExists fs args.template_path = true ∧ ∃ html,
            Delta st (mainRun fs args now st).1
              (A ++ B ++ (C ++ [Event.writeHtml "index.html"])) [("index.html", html)]) ∨
         (fsExists fs args.template_path = false ∧ C = [] ∧
            Delta st (mainRun fs args now st).1 (A ++ B) [])) := by
  intro fs args now st
  set R1 := read_gfx fs args.goals args.dlc st with hR1
  set R2 := read_gfx fs args.ideas args.dlc R1.2 with hR2
  set R3 := read_gfx fs args.character_ideas args.dlc R2.2 with hR3
  set R4 := read_gfx fs args.texticons args.dlc R3.2 with hR4
  set R5 := read_gfx fs args.events args.dlc R4.2 with hR5
  set R6 := read_gfx fs args.news_events args.dlc R5.2 with hR6
  set R7 := read_gfx fs args.agencies args.dlc R6.2 with hR7
  set R8 := read_gfx fs args.decisions args.dlc R7.2 with hR8
  set R9 := read_gfx fs args.decisions_cat args.dlc R8.2 with hR9
  set R10 := read_gfx fs args.decisions_pics args.dlc R9.2 with hR10
  set SC := convert_images fs R10.2
    [R1.1.2, R2.1.2, R3.1.2, R4.1.2, R5.1.2, R6.1.2, R7.1.2, R8.1.2, R9.1.2, R10.1.2]
    (match args.modified_images with
     | some (x :: xs) => some (x :: xs)
     | _ => none) with hSC
  have hmain : mainRun fs args now st =
      generate_html fs SC R1.1.1 R2.1.1 R3.1.1 R4.1.1 R5.1.1 R6.1.1 R7.1.1 R8.1.1
        R9.1.1 R10.1.1 args.title args.favicon args.replace_date args.template_path
        args.dlc now := rfl
  obtain ⟨A1, hA1, d1⟩ := read_gfx_delta fs args.goals args.dlc st
  obtain ⟨A2, hA2, d2⟩ := read_gfx_delta fs args.ideas args.dlc R1.2
  obtain ⟨A3, hA3, d3⟩ := read_gfx_delta fs args.character_ideas args.dlc R2.2
  obtain ⟨A4, hA4, d4⟩ := read_gfx_delta fs args.texticons args.dlc R3.2
  obtain ⟨A5, hA5, d5⟩ := read_gfx_delta fs args.events args.dlc R4.2
  obtain ⟨A6, hA6, d6⟩ := read_gfx_delta fs args.news_events args.dlc R5.2
  obtain ⟨A7, hA7, d7⟩ := read_gfx_delta fs args.agencies args.dlc R6.2
  obtain ⟨A8, hA8, d8⟩ := read_gfx_delta fs args.decisions args.dlc R7.2
  obtain ⟨A9, hA9, d9⟩ := read_gfx_delta fs args.decisions_cat args.dlc R8.2
  obtain ⟨A10, hA10, d10⟩ := read_gfx_delta fs args.decisions_pics args.dlc R9.2
  obtain ⟨B, hB, dB⟩ := convert_images_delta fs R10.2
    [R1.1.2, R2.1.2, R3.1.2, R4.1.2, R5.1.2, R6.1.2, R7.1.2, R8.1.2, R9.1.2, R10.1.2]
    (match args.modified_images with
     | some (x :: xs) => some (x :: xs)
     | _ => none)
  have dRead := delta_comp (delta_comp (delta_comp (delta_comp (delta_comp (delta_comp
    (delta_comp (delta_comp (delta_comp d1 d2) d3) d4) d5) d6) d7) d8) d9) d10
  have hAread : ∀ e ∈ ((((((((A1 ++ A2) ++ A3) ++ A4) ++ A5) ++ A6) ++ A7) ++ A8) ++ A9)
      ++ A10, ∃ p, e = Event.readGfx p :=
    mem_append_all (mem_append_all (mem_append_all (mem_append_all (mem_append_all
      (mem_append_all (mem_append_all (mem_append_all (mem_append_all hA1 hA2) hA3) hA4)
      hA5) hA6) hA7) hA8) hA9) hA10
  have dPre := delta_comp dRead dB
  cases htp : fsExists fs args.template_path with
  | true =>
    obtain ⟨C, html, hC, dGH, _⟩ := generate_html_present fs SC R1.1.1 R2.1.1 R3.1.1
      R4.1.1 R5.1.1 R6.1.1 R7.1.1 R8.1.1 R9.1.1 R10.1.1 args.title args.favicon
      args.replace_date args.template_path args.dlc now htp
    refine ⟨_, B, C, hAread, hB, hC, Or.inl ⟨rfl, html, ?_⟩⟩
    rw [hmain]
    have := delta_comp dPre dGH
    simpa using this
  | false =>
    refine ⟨_, B, [], hAread, hB, by simp, Or.inr ⟨rfl, rfl, ?_⟩⟩
    rw [hmain, generate_html_missing fs SC _ _ _ _ _ _ _ _ _ _ _ _ _ _ _ _ htp]
    have := delta_comp dPre (delta_log SC [args.template_path ++ " doesn\x27t exist!"])
    simpa using this

theorem char_beq_decide (a b : Char) : (a == b) = decide (a = b) := by
  cases h : decide (a = b)
  · simp only [decide_eq_false_iff_not] at h
    simp [h]
  · simp only [decide_eq_true_eq] at h
    simp [h]

theorem char_toNat_ofNat {n : Nat} (h : n < 55296) : (Char.ofNat n).toNat = n := by
  unfold Char.ofNat
  rw [dif_pos (Or.inl h)]
  rfl

theorem char_alpha_range {c : Char} (h : c.isAlpha = true) :
    (65 ≤ c.toNat ∧ c.toNat ≤ 90) ∨ (97 ≤ c.toNat ∧ c.toNat ≤ 122) := by
  simp only [Char.isAlpha, Bool.or_eq_true] at h
  rcases h with h | h
  · simp only [Char.isUpper, Bool.and_eq_true, decide_eq_true_eq] at h
    exact Or.inl ⟨h.1, h.2⟩
  · simp only [Char.isLower, Bool.and_eq_true, decide_eq_true_eq] at h
    exact Or.inr ⟨h.1, h.2⟩

theorem char_toLower_lower {c : Char} (h : 97 ≤ c.toNat ∧ c.toNat ≤ 122) : c.toLower = c := by
  simp only [Char.toLower]
  rw [if_neg (by omega)]

theorem char_toLower_upper {c : Char} (h : 65 ≤ c.toNat ∧ c.toNat ≤ 90) :
    c.toLower = Char.ofNat (c.toNat + 32) := by
  simp only [Char.toLower]
  rw [if_pos (by omega)]

theorem char_toUpper_upper {c : Char} (h : 65 ≤ c.toNat ∧ c.toNat ≤ 90) : c.toUpper = c := by
  simp only [Char.toUpper]
  rw [if_neg (by omega)]

theorem char_toUpper_lower {c : Char} (h : 97 ≤ c.toNat ∧ c.toNat ≤ 122) :
    c.toUpper = Char.ofNat (c.toNat - 32) := by
  simp only [Char.toUpper]
  rw [if_pos (by omega)]

theorem char_ne_of_toNat_ne {c d : Char} (h : c.toNat ≠ d.toNat) : c ≠ d := by
  intro he
  exact h (he ▸ rfl)

theorem alpha_toLower_ne_rbracket {c : Char} (h : c.isAlpha = true) : c.toLower ≠ ']' := by
  rcases char_alpha_range h with hr | hr
  · rw [char_toLower_upper hr]
    refine char_ne_of_toNat_ne ?_
    rw [char_toNat_ofNat (by omega)]
    show c.toNat + 32 ≠ 93
    omega
  · rw [char_toLower_lower hr]
    refine char_ne_of_toNat_ne ?_
    show c.toNat ≠ 93
    omega

theorem alpha_toUpper_ne_rbracket {c : Char} (h : c.isAlpha = true) : c.toUpper ≠ ']' := by
  rcases char_alpha_range h with hr | hr
  · rw [char_toUpper_upper hr]
    refine char_ne_of_toNat_ne ?_
    show c.toNat ≠ 93
    omega
  · rw [char_toUpper_lower hr]
    refine char_ne_of_toNat_ne ?_
    rw [char_toNat_ofNat (by omega)]
    show c.toNat - 32 ≠ 93
    omega

theorem alpha_self_case {c : Char} (h : c.isAlpha = true) :
    (c == c.toLower || c == c.toUpper) = true := by
  rcases char_alpha_range h with hr | hr
  · rw [char_toUpper_upper hr]
    simp
  · rw [char_toLower_lower hr]
    simp

theorem eqUpToCase_nil_right (c : Char) (cs : List Char) :
    eqUpToCase (c :: cs) [] = false := rfl

theorem eqUpToCase_self : ∀ s : List Char, eqUpToCase s s = true
  | [] => rfl
  | c :: cs => by
    by_cases h : c.isAlpha = true
    · simp only [eqUpToCase, h, if_pos, eqUpToCase_self cs, Bool.and_true]
      exact alpha_self_case h
    · simp [eqUpToCase, h, eqUpToCase_self cs]

theorem globMatchF_pattern (fuel : Nat) (s t : List Char)
    (hmeta : ∀ c ∈ s, c ≠ '*' ∧ c ≠ '?' ∧ c ≠ '[')
    (hfuel : ((s.map ciGlobPiece).flatten).length + t.length < fuel) :
    globMatchF fuel ((s.map ciGlobPiece).flatten) t = eqUpToCase s t := by
  induction s generalizing t fuel with
  | nil =>
    match fuel, hfuel with
    | f + 1, _ =>
      cases t with
      | nil => rfl
      | cons d ds => rfl
  | cons c cs ih =>
    have hc := hmeta c (by simp)
    have hcs : ∀ x ∈ cs, x ≠ '*' ∧ x ≠ '?' ∧ x ≠ '[' :=
      fun x hx => hmeta x (by simp [hx])
    by_cases ha : c.isAlpha = true
    · have hpat : ((c :: cs).map ciGlobPiece).flatten =
          '[' :: c.toLower :: c.toUpper :: ']' :: ((cs.map ciGlobPiece).flatten) := by
        simp [ciGlobPiece, ha]
      rw [hpat] at hfuel ⊢
      match fuel, hfuel with
      | f + 1, hfuel =>
        have hsplit : splitCls (c.toLower :: c.toUpper :: ']' :: (cs.map ciGlobPiece).flatten) =
            some ([c.toLower, c.toUpper], (cs.map ciGlobPiece).flatten) := by
          simp [splitCls, alpha_toLower_ne_rbracket ha, alpha_toUpper_ne_rbracket ha]
        simp only [globMatchF, hsplit]
        norm_num
        cases t with
        | nil => simp [eqUpToCase]
        | cons d ds =>
          have hih := ih f ds hcs (by simp at hfuel ⊢; omega)
          simp only [eqUpToCase, ha, if_pos, hih]
          simp [List.contains, List.elem, char_beq_decide]
    · have hpat : ((c :: cs).map ciGlobPiece).flatten =
          c :: ((cs.map ciGlobPiece).flatten) := by
        simp [ciGlobPiece, ha]
      rw [hpat] at hfuel ⊢
      match fuel, hfuel with
      | f + 1, hfuel =>
        simp only [globMatchF, if_neg hc.1, if_neg hc.2.1, if_neg hc.2.2]
        cases t with
        | nil => simp [eqUpToCase]
        | cons d ds =>
          have hih := ih f ds hcs (by simp at hfuel ⊢; omega)
          simp only [eqUpToCase, ha, if_neg, hih]
          simp [char_beq_decide]

/-- Claim C9 (amended): `get_case_insensitive_glob` maps each alphabetic
character `c` to the class `[c.lower()c.upper()]` and passes every other
character through unchanged; therefore, provided the input contains no glob
metacharacter (`*`, `?`, `[`), the produced pattern matches a string exactly
when that string equals the input up to the case of its alphabetic characters
— in particular it always matches the input itself.  (For inputs containing a
metacharacter the equivalence fails; see the counterexample.) -/
theorem claim_C9 :
    ∀ (s t : String),
      (∀ c ∈ s.toList, c ≠ '*' ∧ c ≠ '?' ∧ c ≠ '[') →
      (globMatch (get_case_insensitive_glob s) t = true ↔
        eqUpToCase s.toList t.toList = true) ∧
      globMatch (get_case_insensitive_glob s) s = true := by
  intro s t hmeta
  have hp : (get_case_insensitive_glob s).toList = ((s.toList.map ciGlobPiece)).flatten := rfl
  have h1 : globMatch (get_case_insensitive_glob s) t = eqUpToCase s.toList t.toList := by
    unfold globMatch
    rw [hp]
    exact globMatchF_pattern _ s.toList t.toList hmeta (by omega)
  have h2 : globMatch (get_case_insensitive_glob s) s = eqUpToCase s.toList s.toList := by
    unfold globMatch
    rw [hp]
    exact globMatchF_pattern _ s.toList s.toList hmeta (by omega)
  exact ⟨by rw [h1], by rw [h2, eqUpToCase_self]⟩

/-- Concrete instantiation of `claim_C9`: a metacharacter-free input with
mixed case matched against the opposite-case string, and against itself. -/
theorem claim_C9_witness :
    (globMatch (get_case_insensitive_glob "Ab/c1") "aB/c1" = true ↔
      eqUpToCase "Ab/c1".toList "aB/c1".toList = true) ∧
    globMatch (get_case_insensitive_glob "Ab/c1") "Ab/c1" = true :=
  claim_C9 "Ab/c1" "aB/c1" (by decide)

/-- Character-list level form of `pyReplace` (fuel fixed to the input length,
as in the wrapper). -/
def pyRepL (old new s : List Char) : List Char := pyReplaceF old new s.length s

/-- A template decomposed into literal runs and `@TOKEN` placeholders. -/
inductive Seg where
  | lit : List Char → Seg
  | tok : List Char → Seg
deriving DecidableEq

/-- The characters of one segment. -/
def Seg.chars : Seg → List Char
  | .lit s => s
  | .tok t => t

/-- The template text of a decomposition. -/
def flattenSegs (segs : List Seg) : List Char := (segs.map Seg.chars).flatten

/-- All `@TOKEN` placeholders `generate_html` can substitute (lines 411-440). -/
def tokenFamilyL : List (List Char) :=
  ["@GOALS_ICONS".toList, "@GOALS_NUM".toList, "@IDEAS_ICONS".toList, "@IDEAS_NUM".toList,
   "@CHARACTER_IDEAS_ICONS".toList, "@CHARACTER_IDEAS_NUM".toList,
   "@TEXTICONS_ICONS".toList, "@TEXTICONS_NUM".toList,
   "@EVENTS_ICONS".toList, "@EVENTS_NUM".toList,
   "@NEWSEVENTS_ICONS".toList, "@NEWSEVENTS_NUM".toList,
   "@AGENCIES_ICONS".toList, "@AGENCIES_NUM".toList,
   "@DECISIONS_ICONS".toList, "@DECISIONS_NUM".toList,
   "@DECISIONSCAT_ICONS".toList, "@DECISIONSCAT_NUM".toList,
   "@DECISIONSPICS_ICONS".toList, "@DECISIONSPICS_NUM".toList,
   "@TITLE".toList, "@FAVICON".toList, "@UPDATE_DATE".toList, "@DLC_CHECKBOXES".toList]

/-- A well-formed segment: a literal free of `@`, or a known placeholder. -/
def segOK : Seg → Bool
  | .lit s => s.all (fun x => x ≠ '@')
  | .tok t => decide (t ∈ tokenFamilyL)

/-- A well-formed decomposition. -/
def famOK (segs : List Seg) : Prop := segs.all segOK = true

/-- One substitution step on a segment: the matching placeholder becomes its
content (now literal text), everything else is untouched. -/
def substOne (t c : List Char) : Seg → Seg
  | .tok u => if u = t then .lit c else .tok u
  | .lit s => .lit s

/-- The `(token, content)` pairs substituted by the sections loop, in loop
order with the state threaded exactly as `generate_html` threads it. -/
def sectionPairs (fs : FS) : List TemplateSection → GState → List (String × String)
  | [], _ => []
  | sec :: rest, st =>
    (sec.1, String.join (generate_icons_section fs st sec.2.2.1 sec.2.2.2).1.1) ::
    (sec.2.1, toString (generate_icons_section fs st sec.2.2.1 sec.2.2.2).1.2) ::
    sectionPairs fs rest (generate_icons_section fs st sec.2.2.1 sec.2.2.2).2

/-- Every `(token, content)` pair `generate_html` substitutes, in substitution
order (lines 429-440). -/
def htmlPairs (fs : FS) (st : GState) (secs : List TemplateSection) (title : String)
    (favicon : Option String) (rd : Bool) (dlcs : List DLC) (now : String) :
    List (String × String) :=
  sectionPairs fs secs st ++
    [("@TITLE", title), ("@FAVICON", match favicon with | some f => f | none => "")] ++
    (if rd then [("@UPDATE_DATE", now)] else []) ++
    [("@DLC_CHECKBOXES", joinNL (generate_dlc_checkboxes dlcs))]

/-- The pairs as character lists. -/
def charPairs (pairs : List (String × String)) : List (List Char × List Char) :=
  pairs.map (fun p => (p.1.toList, p.2.toList))

theorem pyReplaceF_fuel (old new : List Char) (hold : old ≠ []) :
    ∀ (n : Nat) (s : List Char) (f1 f2 : Nat), s.length ≤ n → s.length ≤ f1 →
      s.length ≤ f2 → pyReplaceF old new f1 s = pyReplaceF old new f2 s := by
  intro n
  induction n with
  | zero =>
    intro s f1 f2 h0 h1 h2
    have hs : s = [] := List.eq_nil_of_length_eq_zero (by omega)
    subst hs
    cases f1 <;> cases f2 <;> rfl
  | succ n ih =>
    intro s f1 f2 h0 h1 h2
    cases s with
    | nil => cases f1 <;> cases f2 <;> rfl
    | cons c cs =>
      match f1, f2, h1, h2 with
      | g1 + 1, g2 + 1, h1, h2 =>
        simp only [pyReplaceF]
        by_cases hp : old.isPrefixOf (c :: cs) = true
        · rw [if_pos hp, if_pos hp]
          have holdlen : 1 ≤ old.length := by
            cases old with
            | nil => exact absurd rfl hold
            | cons _ _ => simp
          have hdl : ((c :: cs).drop old.length).length = cs.length + 1 - old.length := by
            simp [List.length_drop]
          refine congrArg (new ++ ·) (ih _ g1 g2 ?_ ?_ ?_) <;>
            (rw [hdl]; simp only [List.length_cons] at h0 h1 h2; omega)
        · rw [if_neg hp, if_neg hp]
          refine congrArg (c :: ·) (ih cs g1 g2 ?_ ?_ ?_) <;>
            (simp only [List.length_cons] at h0 h1 h2; omega)

theorem pyRepL_lit (old new : List Char) (hold : old.head? = some '@') :
    ∀ (l r : List Char), (∀ x ∈ l, x ≠ '@') → pyRepL old new (l ++ r) = l ++ pyRepL old new r := by
  intro l
  induction l with
  | nil => intro r _; simp
  | cons c l ihl =>
    intro r hfree
    obtain ⟨os, rfl⟩ : ∃ os, old = '@' :: os := by
      cases old with
      | nil => simp at hold
      | cons o os =>
        have ho : o = '@' := by simpa using hold
        exact ⟨os, by rw [ho]⟩
    have hc : c ≠ '@' := hfree c (by simp)
    simp only [pyRepL, List.cons_append, List.length_cons, pyReplaceF]
    split
    · rename_i hcond
      simp only [List.isPrefixOf, Bool.and_eq_true, beq_iff_eq] at hcond
      exact absurd hcond.1.symm hc
    · refine congrArg (c :: ·) ?_
      exact ihl r (fun x hx => hfree x (by simp [hx]))

theorem isPrefixOf_append_self (l r : List Char) : (l.isPrefixOf (l ++ r)) = true :=
  List.isPrefixOf_iff_prefix.2 (List.prefix_append l r)

theorem pyRepL_tok (old new : List Char) (hold : old ≠ []) :
    ∀ r : List Char, pyRepL old new (old ++ r) = new ++ pyRepL old new r := by
  intro r
  obtain ⟨o, os, rfl⟩ : ∃ o os, old = o :: os := by
    cases old with
    | nil => exact absurd rfl hold
    | cons o os => exact ⟨o, os, rfl⟩
  have hle : ((o :: os) ++ r).length = os.length + r.length + 1 := by
    simp
  rw [pyRepL, hle]
  simp only [List.cons_append, pyReplaceF, List.append_eq]
  split
  · have hdrop : List.drop (o :: os).length (o :: (os ++ r)) = r := by
      simp only [List.length_cons, List.drop_succ_cons, List.drop_left]
    rw [hdrop]
    refine congrArg (new ++ ·) ?_
    have := pyReplaceF_fuel (o :: os) new (by simp) (os.length + r.length) r
      (os.length + r.length) r.length (by omega) (by omega) (by omega)
    rw [this]
    rfl
  · rename_i hcond
    exfalso
    apply hcond
    have := isPrefixOf_append_self (o :: os) r
    rwa [List.cons_append] at this

theorem prefix_of_append_cases {old t r : List Char} (h : old <+: (t ++ r)) :
    old <+: t ∨ t <+: old := by
  rcases List.prefix_or_prefix_of_prefix h (List.prefix_append t r) with h2 | h2
  · exact Or.inl h2
  · exact Or.inr h2

theorem pyRepL_tok_other (old new t : List Char) (hold : old.head? = some '@')
    (ht : t.head? = some '@') (htail : ∀ x ∈ t.tail, x ≠ '@')
    (hnp1 : ¬ old <+: t) (hnp2 : ¬ t <+: old) :
    ∀ r : List Char, pyRepL old new (t ++ r) = t ++ pyRepL old new r := by
  intro r
  obtain ⟨ts, rfl⟩ : ∃ ts, t = '@' :: ts := by
    cases t with
    | nil => simp at ht
    | cons x ts =>
      have : x = '@' := by simpa using ht
      exact ⟨ts, by rw [this]⟩
  have hnp : ¬ (old.isPrefixOf (('@' :: ts) ++ r)) = true := by
    intro hb
    rcases prefix_of_append_cases (List.isPrefixOf_iff_prefix.1 hb) with h2 | h2
    · exact hnp1 h2
    · exact hnp2 h2
  have htl : ∀ x ∈ ts, x ≠ '@' := by
    intro x hx
    exact htail x (by simpa using hx)
  rw [List.cons_append, pyRepL, List.length_cons]
  simp only [pyReplaceF, List.append_eq]
  split
  · rename_i hcond
    exfalso
    apply hnp
    rwa [List.cons_append]
  · have hlit : pyReplaceF old new (ts ++ r).length (ts ++ r) = ts ++ pyRepL old new r :=
      pyRepL_lit old new hold ts r htl
    rw [hlit]
    simp

theorem tokenFamily_head : ∀ t ∈ tokenFamilyL, t.head? = some '@' := by decide

theorem tokenFamily_tail : ∀ t ∈ tokenFamilyL, ∀ x ∈ t.tail, x ≠ '@' := by decide

theorem tokenFamily_nonempty : ∀ t ∈ tokenFamilyL, t ≠ [] := by decide

theorem tokenFamily_no_overlap :
    ∀ t ∈ tokenFamilyL, ∀ u ∈ tokenFamilyL, t ≠ u → ¬ t <+: u := by decide

theorem flattenSegs_cons (sg : Seg) (rest : List Seg) :
    flattenSegs (sg :: rest) = sg.chars ++ flattenSegs rest := by
  simp [flattenSegs]

theorem pyRepL_flatten (old new : List Char) (hfam : old ∈ tokenFamilyL) :
    ∀ segs : List Seg, famOK segs →
      pyRepL old new (flattenSegs segs) = flattenSegs (segs.map (substOne old new)) := by
  intro segs
  induction segs with
  | nil => intro _; rfl
  | cons sg rest ih =>
    intro hok
    have hsg : segOK sg = true := by
      have := hok
      simp only [famOK, List.all_cons, Bool.and_eq_true] at this
      exact this.1
    have hrest : famOK rest := by
      have := hok
      simp only [famOK, List.all_cons, Bool.and_eq_true] at this
      exact this.2
    cases sg with
    | lit s =>
      have hfree : ∀ x ∈ s, x ≠ '@' := by
        simpa [segOK, List.all_eq_true] using hsg
      rw [flattenSegs_cons, List.map_cons, flattenSegs_cons]
      show pyRepL old new (s ++ flattenSegs rest) = s ++ flattenSegs (rest.map (substOne old new))
      rw [pyRepL_lit old new (tokenFamily_head old hfam) s _ hfree, ih hrest]
    | tok t =>
      have htmem : t ∈ tokenFamilyL := by
        simpa [segOK] using hsg
      rw [flattenSegs_cons, List.map_cons]
      by_cases heq : t = old
      · subst heq
        show pyRepL t new (t ++ flattenSegs rest) = flattenSegs (substOne t new (Seg.tok t) :: _)
        rw [pyRepL_tok t new (tokenFamily_nonempty t htmem), ih hrest]
        simp [substOne, flattenSegs_cons, Seg.chars]
      · show pyRepL old new (t ++ flattenSegs rest) = flattenSegs (substOne old new (Seg.tok t) :: _)
        rw [pyRepL_tok_other old new t (tokenFamily_head old hfam) (tokenFamily_head t htmem)
          (tokenFamily_tail t htmem)
          (tokenFamily_no_overlap old hfam t htmem (fun h => heq h.symm))
          (tokenFamily_no_overlap t htmem old hfam heq) (flattenSegs rest), ih hrest]
        simp [substOne, heq, flattenSegs_cons, Seg.chars]

theorem famOK_map_subst (t c : List Char) (hc : ∀ x ∈ c, x ≠ '@') :
    ∀ segs : List Seg, famOK segs → famOK (segs.map (substOne t c)) := by
  intro segs h
  simp only [famOK, List.all_eq_true] at h ⊢
  intro sg hsg
  rcases List.mem_map.1 hsg with ⟨sg0, hsg0, rfl⟩
  have h0 := h sg0 hsg0
  cases sg0 with
  | lit s => exact h0
  | tok u =>
    by_cases hu : u = t
    · subst hu
      simp only [substOne, if_pos rfl, if_true, segOK, List.all_eq_true]
      intro x hx
      simpa using hc x hx
    · simpa [substOne, hu] using h0

theorem pyRepL_fold :
    ∀ (pairs : List (List Char × List Char)) (segs : List Seg), famOK segs →
      (∀ p ∈ pairs, p.1 ∈ tokenFamilyL ∧ ∀ x ∈ p.2, x ≠ '@') →
      pairs.foldl (fun h p => pyRepL p.1 p.2 h) (flattenSegs segs) =
        flattenSegs (segs.map (fun sg => pairs.foldl (fun sg p => substOne p.1 p.2 sg) sg))
  | [], segs, _, _ => by simp
  | p :: ps, segs, hok, hps => by
    rw [List.foldl_cons, pyRepL_flatten p.1 p.2 (hps p (by simp)).1 segs hok,
      pyRepL_fold ps (segs.map (substOne p.1 p.2))
        (famOK_map_subst p.1 p.2 (hps p (by simp)).2 segs hok)
        (fun q hq => hps q (by simp [hq])),
      List.map_map]
    rfl

theorem sectionsFold_html (fs : FS) :
    ∀ (secs : List TemplateSection) (html : String) (st : GState),
      (sectionsFold fs secs (html, st)).1 =
        (sectionPairs fs secs st).foldl (fun h p => pyReplace h p.1 p.2) html
  | [], html, st => rfl
  | sec :: rest, html, st => by
    simp only [sectionsFold, sectionPairs, List.foldl_cons]
    exact sectionsFold_html fs rest _ _

theorem generate_html_written (fs : FS) (st : GState)
    (g1 g2 g3 g4 g5 g6 g7 g8 g9 g10 : Gfx) (title : String) (favicon : Option String)
    (rd : Bool) (tp : String) (dlcs : List DLC) (now : String) (tpl : String)
    (h : fsExists fs tp = true) (hread : fsRead fs tp = .ok tpl) :
    (generate_html fs st g1 g2 g3 g4 g5 g6 g7 g8 g9 g10
        title favicon rd tp dlcs now).1.written =
      st.written ++ [("index.html",
        (htmlPairs fs st (theSections g1 g2 g3 g4 g5 g6 g7 g8 g9 g10)
          title favicon rd dlcs now).foldl (fun h p => pyReplace h p.1 p.2) tpl)] := by
  obtain ⟨evs, _, hd⟩ := sectionsFold_delta fs
    (theSections g1 g2 g3 g4 g5 g6 g7 g8 g9 g10) tpl st
  have hw := hd.written_eq
  simp only [generate_html, h, Bool.not_true, Bool.false_eq_true, if_false, hread]
  rw [hw]
  simp only [List.append_nil, List.append_assoc, List.nil_append]
  congr 1
  cases rd <;>
    simp [htmlPairs, List.foldl_append, sectionsFold_html fs _ tpl st]

theorem foldl_pyReplace_chars :
    ∀ (pairs : List (String × String)) (l : List Char),
      pairs.foldl (fun h p => pyReplace h p.1 p.2) l.asString =
        ((charPairs pairs).foldl (fun h p => pyRepL p.1 p.2 h) l).asString
  | [], _ => rfl
  | p :: ps, l => by
    rw [List.foldl_cons]
    have h1 : pyReplace l.asString p.1 p.2 = (pyRepL p.1.toList p.2.toList l).asString := rfl
    rw [h1, foldl_pyReplace_chars ps (pyRepL p.1.toList p.2.toList l)]
    rfl

/-- Claim C7 (amended): when the template decomposes into literal runs free of
the `@` character and known `@TOKEN` placeholders, and every substituted
content is itself free of `@`, the file `generate_html` writes is exactly the
template with each placeholder replaced by its generated content and every
literal run left unchanged (simultaneous per-segment substitution). -/
theorem claim_C7 (fs : FS) (st : GState)
    (g1 g2 g3 g4 g5 g6 g7 g8 g9 g10 : Gfx) (title : String) (favicon : Option String)
    (rd : Bool) (tp : String) (dlcs : List DLC) (now : String) (segs : List Seg)
    (hex : fsExists fs tp = true)
    (hread : fsRead fs tp = .ok (flattenSegs segs).asString)
    (hfam : famOK segs)
    (hpairs : ∀ p ∈ charPairs (htmlPairs fs st (theSections g1 g2 g3 g4 g5 g6 g7 g8 g9 g10)
        title favicon rd dlcs now), p.1 ∈ tokenFamilyL ∧ ∀ x ∈ p.2, x ≠ '@') :
    (generate_html fs st g1 g2 g3 g4 g5 g6 g7 g8 g9 g10
        title favicon rd tp dlcs now).1.written =
      st.written ++ [("index.html",
        (flattenSegs (segs.map (fun sg =>
          (charPairs (htmlPairs fs st (theSections g1 g2 g3 g4 g5 g6 g7 g8 g9 g10)
            title favicon rd dlcs now)).foldl
              (fun sg p => substOne p.1 p.2 sg) sg))).asString)] := by
  rw [generate_html_written fs st g1 g2 g3 g4 g5 g6 g7 g8 g9 g10 title favicon rd tp dlcs
    now (flattenSegs segs).asString hex hread]
  have hA : (htmlPairs fs st (theSections g1 g2 g3 g4 g5 g6 g7 g8 g9 g10)
        title favicon rd dlcs now).foldl (fun h p => pyReplace h p.1 p.2)
        (flattenSegs segs).asString =
      (flattenSegs (segs.map (fun sg =>
        (charPairs (htmlPairs fs st (theSections g1 g2 g3 g4 g5 g6 g7 g8 g9 g10)
          title favicon rd dlcs now)).foldl
            (fun sg p => substOne p.1 p.2 sg) sg))).asString := by
    rw [foldl_pyReplace_chars, pyRepL_fold _ segs hfam hpairs]
  rw [hA]

/-- Template for the C7 witness run: one literal, one placeholder, one literal. -/
def fsC7w : FS := [("tpl", "A@TITLEB")]

/-- Decomposition of the C7 witness template. -/
def segsC7w : List Seg := [.lit "A".toList, .tok "@TITLE".toList, .lit "B".toList]

theorem claim_C7_witness :
    (generate_html fsC7w initState [] [] [] [] [] [] [] [] [] []
        "T" none false "tpl" [] "now").1.written =
      initState.written ++ [("index.html",
        (flattenSegs (segsC7w.map (fun sg =>
          (charPairs (htmlPairs fsC7w initState (theSections [] [] [] [] [] [] [] [] [] [])
            "T" none false [] "now")).foldl
              (fun sg p => substOne p.1 p.2 sg) sg))).asString)] :=
  claim_C7 fsC7w initState [] [] [] [] [] [] [] [] [] [] "T" none false "tpl" [] "now"
    segsC7w (by decide) rfl rfl (by decide)

/-- File system for the C7 counterexample: the template, and the icon image in
both source and converted form. -/
def fsC7 : FS := [("tpl", "@GOALS_ICONS|@TITLE"), ("a.png", "png"), ("a.dds", "dds")]

/-- Goals dictionary for the C7 counterexample: a single icon whose name is
the text `@TITLE`, so the icons content generated for `@GOALS_ICONS` contains
a later placeholder, which the subsequent sequential `.replace` rewrites. -/
def goalsC7 : Gfx := [("k", [⟨"@TITLE", "a.dds", 1, none⟩])]

/-- Decomposition of the C7 counterexample template. -/
def segsC7 : List Seg :=
  [.tok "@GOALS_ICONS".toList, .lit "|".toList, .tok "@TITLE".toList]

set_option maxRecDepth 8000 in
/-- Claim C7 as stated is false: the written file is produced by sequential
`.replace` calls, so generated content that itself contains a later `@TOKEN`
is rewritten again, and the output differs from the template with each
placeholder replaced by its own content and all other text unchanged. -/
theorem claim_C7_counterexample :
    fsRead fsC7 "tpl" = .ok (flattenSegs segsC7).asString ∧ famOK segsC7 ∧
    (generate_html fsC7 initState goalsC7 [] [] [] [] [] [] [] [] []
        "T" none false "tpl" [] "now").1.written ≠
      initState.written ++ [("index.html",
        (flattenSegs (segsC7.map (fun sg =>
          (charPairs (htmlPairs fsC7 initState (theSections goalsC7 [] [] [] [] [] [] [] [] [])
            "T" none false [] "now")).foldl
              (fun sg p => substOne p.1 p.2 sg) sg))).asString)] :=
  ⟨rfl, rfl, by decide⟩

end HoI4
